import Mathlib

/-!
Verification of the varman record-persistence and bulk-transaction engine.

This file shallowly embeds the Python source of the `tabdata` repository
(package `varman`): the generic record mapper and bulk-transaction executor
in `varman/models/base.py`, the pagination engine in the same module, the
validation utilities in `varman/utils/validation.py`, the constraint
registry in `varman/utils/constraints.py`, and the variable-specific
validation and creation paths in `varman/models/variable.py`.

Modelling conventions:
* Python dictionaries become association lists `List (String × Value)`;
  `Value` mirrors the Python values that flow through the engine
  (None, int, bool, str, and nested lists/dicts used by the variable
  validator).  Python floats do not occur in any behaviour verified here
  and are not modelled.
* The SQLite connection becomes a pair of table states: the durable
  (committed) state and the connection-local (current) state.  `commit`
  publishes `current`; `rollback` restores `committed`.  Crucially,
  `BaseModel.create`/`update`/`delete` each call `connection.commit()`
  (base.py lines 70, 383, 414), which the embedding reproduces: every
  per-item write inside a bulk loop is durably committed on the spot.
* Exceptions become `Except String`; messages follow the source but elide
  Python repr quoting of embedded lists/names (no verified property
  inspects the elided parts of a message).
-/

namespace Varman

/-- A Python value as it appears in the data dictionaries handled by the
engine: `None`, `bool`, `int`, `str`, and the nested lists / dicts consumed
by `Variable.validate_data`.  (Floats never occur in the verified paths.) -/
inductive Value where
  | null : Value
  | bool (b : Bool) : Value
  | int (n : Int) : Value
  | str (s : String) : Value
  | list (xs : List Value) : Value
  | dict (kvs : List (String × Value)) : Value
deriving Repr

/-- A Python dictionary with string keys, as an association list. -/
abbrev Dict := List (String × Value)

mutual

/-- Structural equality on `Value` (Python `==` on these shapes). -/
def Value.beq : Value → Value → Bool
  | .null, .null => true
  | .bool a, .bool b => a == b
  | .int a, .int b => a == b
  | .str a, .str b => a == b
  | .list a, .list b => Value.beqList a b
  | .dict a, .dict b => Value.beqDict a b
  | _, _ => false

/-- Equality on lists of values. -/
def Value.beqList : List Value → List Value → Bool
  | [], [] => true
  | a :: as2, b :: bs => Value.beq a b && Value.beqList as2 bs
  | _, _ => false

/-- Equality on dictionaries (as ordered association lists). -/
def Value.beqDict : List (String × Value) → List (String × Value) → Bool
  | [], [] => true
  | (ka, va) :: as2, (kb, vb) :: bs =>
      ka == kb && Value.beq va vb && Value.beqDict as2 bs
  | _, _ => false

end

instance : BEq Value := ⟨Value.beq⟩

/-- Python truthiness of a `Value` (`bool(v)`): `None`, `False`, `0`, the
empty string, the empty list and the empty dict are falsy. -/
def Value.truthy : Value → Bool
  | .null => false
  | .bool b => b
  | .int n => n != 0
  | .str s => s ≠ ""
  | .list xs => !xs.isEmpty
  | .dict kvs => !kvs.isEmpty

/-- The `data.get(k)` / `k in data`: first value bound to `k` (Python dict keys
are unique, so first = only). -/
def dictGet (data : Dict) (k : String) : Option Value :=
  match data with
  | [] => none
  | (k2, v) :: rest => if k2 = k then some v else dictGet rest k

/-- The `data.get(k, default)` with default `None`. -/
def dictGetD (data : Dict) (k : String) : Value :=
  (dictGet data k).getD .null

/-- Python dict merge of `a` then `b`: keys of `a` in order, values
overridden by `b`, followed by the keys of `b` that are not in `a`. -/
def dictMerge (a b : Dict) : Dict :=
  (a.map fun kv => (kv.1, (dictGet b kv.1).getD kv.2)) ++
    b.filter fun kv => !(a.any fun kv2 => kv2.1 = kv.1)

/-- Helper of `setKey`: replace every binding of `k` in place. -/
def replaceKey : Dict → String → Value → Dict
  | [], _, _ => []
  | (k1, v1) :: rest, k, v =>
      if k1 = k then (k, v) :: replaceKey rest k v else (k1, v1) :: replaceKey rest k v

/-- The `setattr(obj, k, v)` on the attribute dictionary: replace the binding of
`k` when present, otherwise add it at the end. -/
def setKey : Dict → String → Value → Dict
  | [], k, v => [(k, v)]
  | (k1, v1) :: rest, k, v =>
      if k1 = k then (k, v) :: replaceKey rest k v else (k1, v1) :: setKey rest k v

/-- One field-scoped validation message, as appended by
`ValidationResult.add_error` / `add_warning` (utils/validation.py). -/
structure FieldError where
  field : String
  message : String
deriving Repr, DecidableEq

/-- The `ValidationResult` (utils/validation.py lines 15-46): ordered error and
warning lists. -/
structure ValidationResult where
  errors : List FieldError
  warnings : List FieldError
deriving Repr, DecidableEq

/-- The empty `ValidationResult` produced by its constructor. -/
def ValidationResult.empty : ValidationResult := ⟨[], []⟩

/-- The `add_error(field, message)`. -/
def ValidationResult.addError (r : ValidationResult) (f m : String) : ValidationResult :=
  { r with errors := r.errors ++ [⟨f, m⟩] }

/-- The `add_warning(field, message)`. -/
def ValidationResult.addWarning (r : ValidationResult) (f m : String) : ValidationResult :=
  { r with warnings := r.warnings ++ [⟨f, m⟩] }

/-- The `is_valid`: true iff the error list is empty. -/
def ValidationResult.isValid (r : ValidationResult) : Bool :=
  r.errors.length == 0

/-- The `str.isidentifier()` restricted to ASCII (all names in this code base are
ASCII): nonempty, the first character is a letter or underscore, the rest are
letters, digits or underscores. -/
def pyIsIdentifier (s : String) : Bool :=
  match s.data with
  | [] => false
  | c :: rest =>
      (c.isAlpha || c = '_') &&
        rest.all fun c2 => c2.isAlphanum || c2 = '_'

/-- The `str.islower()` restricted to ASCII: at least one cased character, and
every cased character is lowercase. -/
def pyIsLower (s : String) : Bool :=
  s.data.any Char.isAlpha && s.data.all fun c => !c.isAlpha || c.isLower

/-- The `validate_name` (utils/validation.py lines 68-78): the name must be a
valid Python identifier and lowercase. -/
def validate_name (name : String) : Bool :=
  pyIsIdentifier name && pyIsLower name

/-- The `validate_data_type` (utils/validation.py lines 118-128): membership of
the value in the list of valid types; a non-string value is simply not a
member. -/
def validate_data_type (dataType : Value) (validTypes : List String) : Bool :=
  validTypes.any fun t => dataType == .str t

/-- The `str.lower()` restricted to ASCII. -/
def pyLower (s : String) : String :=
  String.mk (s.data.map Char.toLower)

/-- Python `str(v)` for the scalar values that reach error messages
(`f-string` interpolation of ids).  Nested values never reach a verified
message; their rendering is a placeholder. -/
def Value.pyStr : Value → String
  | .null => "None"
  | .bool b => if b then "True" else "False"
  | .int n => toString n
  | .str s => s
  | .list _ => "list"
  | .dict _ => "dict"

/-! ## The store

One SQLite table (`rows` plus the `AUTOINCREMENT` counter) and one
connection.  A connection carries the durable state (`committed`) and the
connection-local state (`current`); `commit` publishes `current` and
`rollback` discards everything since the last commit.  Bulk operations
always run on a freshly opened connection (base.py lines 516-530), so a
bulk loop starts with `current = committed`. -/

/-- One row of the entity table: the store-assigned id and the declared
columns (insertion normalises the row to exactly the declared columns,
absent inputs becoming SQL NULL). -/
structure Row where
  id : Nat
  vals : Dict
deriving Repr

/-- The entity table. -/
structure Table where
  rows : List Row
  nextId : Nat
deriving Repr

/-- The SQLite connection: durable state plus uncommitted local state. -/
structure Conn where
  committed : Table
  current : Table
deriving Repr

/-- The `connection.commit()`. -/
def Conn.commit (c : Conn) : Conn := ⟨c.current, c.current⟩

/-- The `connection.rollback()`: discards changes since the last commit.  (After
a per-item `commit` there is nothing left to discard — the heart of the
weak-rollback behaviour verified below.) -/
def Conn.rollback (c : Conn) : Conn := ⟨c.committed, c.committed⟩

/-- A fresh connection over durable state `s` (what `get_connection()`
returns at the start of every bulk operation). -/
def Conn.fresh (s : Table) : Conn := ⟨s, s⟩

/-- An entity descriptor: the class-level metadata of a `BaseModel` subclass
(`table_name` is irrelevant to behaviour and omitted).  `validate_data?` is
present exactly when the subclass defines `validate_data`
(`hasattr` of `validate_data`); it returns `Except` because the Python
validator can itself raise (e.g. `AttributeError` on a non-string name).
`insertCheck` / `updateCheck` model the store-level schema enforcement
(`NOT NULL` / `UNIQUE` / `CHECK`): `some msg` means the statement raises
with that message.  Deletes cannot be rejected in this schema (all foreign
keys into deletable tables are `ON DELETE CASCADE` / `SET NULL`). -/
structure Descriptor where
  idColumn : String
  columns : List String
  validateData? : Option (Dict → Except String ValidationResult)
  insertCheck : Table → Dict → Option String
  updateCheck : Table → Nat → Dict → Option String

/-- A model instance: `self.id` (None before persistence) plus the declared
column attributes. -/
structure Instance where
  id : Option Nat
  vals : Dict
deriving Repr

/-- The `__init__` / row hydration: attribute `c` gets `kwargs.get(c)` for every
declared column (missing → None).  Also the effective content of an INSERT
restricted to the declared columns: unspecified columns are NULL. -/
def projectCols (cols : List String) (data : Dict) : Dict :=
  cols.map fun c => (c, dictGetD data c)

namespace BaseModel

/-- The `BaseModel.create` (base.py lines 42-81): insert the declared columns of
`data`, let the store assign the id, and commit.  Store-level rejection
(uniqueness, checks) raises.  Returns the hydrated row. -/
def create (d : Descriptor) (data : Dict) (c : Conn) : Except String (Row × Conn) :=
  match d.insertCheck c.current data with
  | some e => .error e
  | none =>
      let row : Row := ⟨c.current.nextId, projectCols d.columns data⟩
      let t : Table := ⟨c.current.rows ++ [row], c.current.nextId + 1⟩
      .ok (row, Conn.commit ⟨c.committed, t⟩)

/-- The `BaseModel.get` (base.py lines 84-116): single-row lookup by id over the
connection-local state; absence is `none`, never an error. -/
def get (t : Table) (i : Int) : Option Row :=
  t.rows.find? fun r => (r.id : Int) = i

/-- The update payload actually applied: the pairs of `data` whose key is a
declared column (`if column in self.columns`). -/
def declaredUpdates (d : Descriptor) (data : Dict) : Dict :=
  data.filter fun kv => kv.1 ∈ d.columns

/-- The `setattr` loop of `BaseModel.update`: apply each declared update to the
attribute dictionary in payload order. -/
def applyUpdates (vals : Dict) (updates : Dict) : Dict :=
  updates.foldl (fun acc kv => setKey acc kv.1 kv.2) vals

/-- Message raised by `update` on an unpersisted instance. -/
def updateNoIdMsg : String := "Cannot update a model without an ID"

/-- The `BaseModel.update` (base.py lines 343-389): fails before any write when
the instance has no id; mutates only the declared columns present in
`data` (unknown keys are skipped); with no declared column present it
returns without touching the store; otherwise executes one UPDATE on the
row with this id and commits. -/
def update (d : Descriptor) (inst : Instance) (data : Dict) (c : Conn) :
    Except String (Instance × Conn) :=
  match inst.id with
  | none => .error updateNoIdMsg
  | some i =>
      let updates := declaredUpdates d data
      let inst2 : Instance := ⟨some i, applyUpdates inst.vals updates⟩
      if updates.isEmpty then
        .ok (inst2, c)
      else
        match d.updateCheck c.current i updates with
        | some e => .error e
        | none =>
            let t : Table :=
              { c.current with
                  rows := c.current.rows.map fun r =>
                    if r.id = i then ⟨r.id, applyUpdates r.vals updates⟩ else r }
            .ok (inst2, Conn.commit ⟨c.committed, t⟩)

/-- Message raised by `delete` on an unpersisted instance. -/
def deleteNoIdMsg : String := "Cannot delete a model without an ID"

/-- The `BaseModel.delete` (base.py lines 391-420): fails when the instance has
no id; otherwise removes the row with this id and commits. -/
def delete (inst : Instance) (c : Conn) : Except String Conn :=
  match inst.id with
  | none => .error deleteNoIdMsg
  | some i =>
      let t : Table :=
        { c.current with rows := c.current.rows.filter fun r => r.id ≠ i }
      .ok (Conn.commit ⟨c.committed, t⟩)

/-- The `BaseModel.to_dict` without the id entry, as used to build the merged
validation view in `bulk_update` (base.py lines 702-705): the declared
columns with the current attribute values. -/
def toDictNoId (d : Descriptor) (inst : Instance) : Dict :=
  projectCols d.columns inst.vals

end BaseModel

/-! ## Bulk transaction executor (base.py lines 487-882)

Control-flow notes, traced from the source:
* Each bulk operation opens a fresh connection, executes
  `BEGIN IMMEDIATE TRANSACTION`, and runs a per-item `try`.
* A checked failure (validation failure, missing id, record not found)
  appends its error entry and then, when `stop_on_error` is true, raises
  `ValueError` *inside the per-item try*: the per-item `except` catches it,
  appends a second entry `data/error` for the same item, and re-raises.
  The outer handler rolls back; since the error list is nonempty no outer
  entry is added.  So a checked failure under `stop_on_error` contributes
  two entries, an apply failure one entry.
* `cls.create` / `item.update` / `item.delete` each commit, so the final
  `commit` and the abort-path `rollback` find nothing pending. -/

/-- One entry of a bulk error list: `data`+`errors` for a validation
failure, `data`+`error` for an exception converted per item, and the
`data=None` entry of the outer handler (the outer handler only fires for
setup failures, which the embedding has none of, but the shape is kept). -/
inductive BulkError where
  | vErr (data : Dict) (errs : List FieldError) : BulkError
  | iErr (data : Dict) (msg : String) : BulkError
  | oErr (msg : String) : BulkError
deriving Repr

/-- The `data` field of a bulk error entry (`None` for an outer entry). -/
def BulkError.dataOf : BulkError → Option Dict
  | .vErr data _ => some data
  | .iErr data _ => some data
  | .oErr _ => none

/-- The `str(ValueError(f"Validation failed: ..."))`: the message of the
stop-on-error exception raised after a validation failure.  The Python
repr of the error-dict list is elided (no verified property reads it). -/
def validationFailedMsg (errs : List FieldError) : String :=
  "Validation failed: " ++ String.intercalate "; " (errs.map fun e => e.field ++ ": " ++ e.message)

/-- The entries a checked failure contributes: the recorded entry, plus —
when `stop_on_error` is true — the entry added by the per-item `except`
for the re-raised `ValueError` with message `raiseMsg`. -/
def checkedFail (stopOnError : Bool) (first : BulkError) (item : Dict) (raiseMsg : String) :
    List BulkError :=
  if stopOnError then [first, .iErr item raiseMsg] else [first]

/-- Outcome of processing one item: success with the produced value and the
connection after the committed write, or failure with the error entries. -/
inductive Step (α : Type) where
  | ok (a : α) (c2 : Conn) : Step α
  | fail (es : List BulkError) : Step α
deriving Repr

/-- The apply phase of one `bulk_create` item: `cls.create`, its exception
caught into a `data`/`error` entry. -/
def createApply (d : Descriptor) (item : Dict) (c : Conn) : Step Row :=
  match BaseModel.create d item c with
  | .error e => .fail [.iErr item e]
  | .ok (row, c2) => .ok row c2

/-- Processing of one `bulk_create` item (base.py lines 540-575): optional
validation — a validation failure is recorded (twice under
`stop_on_error`, see above) without touching the store — then the insert. -/
def createStep (d : Descriptor) (validate stopOnError : Bool) (item : Dict) (c : Conn) :
    Step Row :=
  match (if validate then d.validateData? else none) with
  | none => createApply d item c
  | some f =>
      match f item with
      | .error e => .fail [.iErr item e]
      | .ok vr =>
          if vr.isValid then
            createApply d item c
          else
            .fail (checkedFail stopOnError (.vErr item vr.errors) item
              (validationFailedMsg vr.errors))

/-- The item loop shared (verbatim, in the source) by the three bulk
operations, with the outer handler folded in: on a failing item,
`stop_on_error` aborts with a rollback, otherwise the loop continues;
after the last item the transaction is committed. -/
def bulkLoop {ι α : Type} (stopOnError : Bool) (step : ι → Conn → Step α) :
    List ι → Conn → List α → List BulkError → List α × List BulkError × Conn
  | [], c, succ, errs => (succ, errs, c.commit)
  | i :: rest, c, succ, errs =>
      match step i c with
      | .ok a c2 => bulkLoop stopOnError step rest c2 (succ ++ [a]) errs
      | .fail es =>
          if stopOnError then (succ, errs ++ es, c.rollback)
          else bulkLoop stopOnError step rest c succ (errs ++ es)

/-- The `BaseModel.bulk_create` (base.py lines 487-604): fresh connection, one
batch loop over `createStep`, the durable table as outcome. -/
def bulkCreate (d : Descriptor) (items : List Dict) (validate stopOnError : Bool) (s : Table) :
    List Row × List BulkError × Table :=
  let r := bulkLoop stopOnError (createStep d validate stopOnError) items (Conn.fresh s) [] []
  (r.1, r.2.1, r.2.2.committed)

/-- Message of the missing-id error in `bulk_update`. -/
def idRequiredMsg (d : Descriptor) : String :=
  d.idColumn ++ " is required for update operations"

/-- Message of the record-not-found error in `bulk_update` / `bulk_delete`. -/
def notFoundMsg (d : Descriptor) (idv : Value) : String :=
  "Item with " ++ d.idColumn ++ "=" ++ idv.pyStr ++ " not found"

/-- The apply phase of one `bulk_update` item: `item.update`, its exception
caught into a `data`/`error` entry. -/
def updateApply (d : Descriptor) (inst : Instance) (updateData item : Dict) (c : Conn) :
    Step Instance :=
  match BaseModel.update d inst updateData c with
  | .error e => .fail [.iErr item e]
  | .ok (inst2, c2) => .ok inst2 c2

/-- Processing of one `bulk_update` item (base.py lines 659-740): id
presence check, existence check, optional validation over the merged view
(current record overlaid with the incoming changes), then the update. -/
def updateStep (d : Descriptor) (validate stopOnError : Bool) (item : Dict) (c : Conn) :
    Step Instance :=
  match dictGet item d.idColumn with
  | none =>
      .fail (checkedFail stopOnError (.iErr item (idRequiredMsg d)) item (idRequiredMsg d))
  | some idv =>
      if idv == .null then
        .fail (checkedFail stopOnError (.iErr item (idRequiredMsg d)) item (idRequiredMsg d))
      else
        match (match idv with | .int n => BaseModel.get c.current n | _ => none) with
        | none =>
            .fail (checkedFail stopOnError (.iErr item (notFoundMsg d idv)) item
              (notFoundMsg d idv))
        | some row =>
            let inst : Instance := ⟨some row.id, projectCols d.columns row.vals⟩
            let updateData := item.filter fun kv => kv.1 ≠ d.idColumn
            match (if validate then d.validateData? else none) with
            | none => updateApply d inst updateData item c
            | some f =>
                let validationData := dictMerge (BaseModel.toDictNoId d inst) updateData
                match f validationData with
                | .error e => .fail [.iErr item e]
                | .ok vr =>
                    if vr.isValid then
                      updateApply d inst updateData item c
                    else
                      .fail (checkedFail stopOnError (.vErr item vr.errors) item
                        (validationFailedMsg vr.errors))

/-- The `BaseModel.bulk_update` (base.py lines 606-769). -/
def bulkUpdate (d : Descriptor) (items : List Dict) (validate stopOnError : Bool) (s : Table) :
    List Instance × List BulkError × Table :=
  let r := bulkLoop stopOnError (updateStep d validate stopOnError) items (Conn.fresh s) [] []
  (r.1, r.2.1, r.2.2.committed)

/-- Processing of one `bulk_delete` item (base.py lines 819-853): existence
check, then `item.delete` (which in this schema can only fail on a missing
id, impossible here). -/
def deleteStep (d : Descriptor) (stopOnError : Bool) (i : Int) (c : Conn) : Step Unit :=
  match BaseModel.get c.current i with
  | none =>
      .fail (checkedFail stopOnError (.iErr [("id", .int i)] (notFoundMsg d (.int i)))
        [("id", .int i)] (notFoundMsg d (.int i)))
  | some row =>
      match BaseModel.delete ⟨some row.id, projectCols d.columns row.vals⟩ c with
      | .error e => .fail [.iErr [("id", .int i)] e]
      | .ok c2 => .ok () c2

/-- One item of the `bulk_delete` loop paired with its own id as the
success value (the loop appends `item_id` to `successful_ids`). -/
def deleteIdStep (d : Descriptor) (stopOnError : Bool) (i : Int) (c : Conn) : Step Int :=
  match deleteStep d stopOnError i c with
  | .ok _ c2 => .ok i c2
  | .fail es => .fail es

/-- The `BaseModel.bulk_delete` (base.py lines 771-882). -/
def bulkDelete (d : Descriptor) (ids : List Int) (stopOnError : Bool) (s : Table) :
    List Int × List BulkError × Table :=
  let r := bulkLoop stopOnError (deleteIdStep d stopOnError) ids (Conn.fresh s) [] []
  (r.1, r.2.1, r.2.2.committed)

/-! ## Query / pagination engine (`get_paginated`, base.py lines 228-341) -/

/-- The statements `get_paginated` can execute, for tracking that parameter
violations issue no query. -/
inductive SqlQuery where
  | countQ : SqlQuery
  | selectQ : SqlQuery
deriving Repr, DecidableEq

/-- SQL `=` used by the WHERE conjunction: comparisons involving NULL are
not true.  (A filter naming an undeclared column would be a SQL error; no
verified property uses one, and it is modelled as matching nothing.) -/
def sqlEq (a b : Value) : Bool :=
  if a == .null || b == .null then false else a == b

/-- One row satisfies the exact-match AND-conjunction of `filters`. -/
def rowMatches (filters : List (String × Value)) (r : Row) : Bool :=
  filters.all fun kv => sqlEq (dictGetD r.vals kv.1) kv.2

/-- SQLite ordering class of a stored value: NULL before numbers before
text (booleans are stored as integers). -/
def valueRank : Value → Nat
  | .null => 0
  | .bool _ => 1
  | .int _ => 1
  | .str _ => 2
  | .list _ => 3
  | .dict _ => 3

/-- Numeric content of a stored numeric value. -/
def valueNum : Value → Int
  | .bool b => if b then 1 else 0
  | .int n => n
  | _ => 0

/-- SQLite `ORDER BY` comparison on stored values (only its totality and
reflexive-transitive shape matter to the verified properties; lists/dicts
cannot be stored and compare arbitrarily). -/
def valueLe (a b : Value) : Bool :=
  if valueRank a ≠ valueRank b then valueRank a < valueRank b
  else
    match a, b with
    | .str x, .str y => x ≤ y
    | .list _, _ => true
    | .dict _, _ => true
    | _, _ => valueNum a ≤ valueNum b

/-- Comparison of two rows under `ORDER BY col ord`. -/
def rowLe (col : String) (desc : Bool) (r1 r2 : Row) : Bool :=
  if desc then valueLe (dictGetD r2.vals col) (dictGetD r1.vals col)
  else valueLe (dictGetD r1.vals col) (dictGetD r2.vals col)

/-- Insertion into a sorted row list. -/
def insertSorted (le : Row → Row → Bool) (r : Row) : List Row → List Row
  | [] => [r]
  | x :: xs => if le r x then r :: x :: xs else x :: insertSorted le r xs

/-- The sort applied by `ORDER BY` (any store sort is a permutation; an
insertion sort represents it). -/
def sortRows (le : Row → Row → Bool) : List Row → List Row
  | [] => []
  | x :: xs => insertSorted le x (sortRows le xs)

/-- The `sort_by is not None and sort_by not in cls.columns and
sort_by != cls.id_column`. -/
def sortColumnBad (d : Descriptor) : Option String → Bool
  | none => false
  | some c => !(d.columns.contains c) && c != d.idColumn

namespace BaseModel

/-- The `get_paginated` (base.py lines 228-341): parameter validation first —
failing fast with a `ValueError` and issuing no query — then the count
query with the filter conjunction, a short-circuit on an empty count, and
finally the page query `LIMIT page_size OFFSET (page-1)*page_size` with
the optional `ORDER BY`.  The second component lists the queries
executed.  (Messages elide the Python quoting of embedded names.) -/
def getPaginated (d : Descriptor) (page pageSize : Int)
    (filters : List (String × Value)) (sortBy : Option String) (sortOrder : String)
    (t : Table) : Except String (List Row × Nat) × List SqlQuery :=
  if page < 1 then
    (.error "Page number must be >= 1", [])
  else if pageSize ≤ 0 then
    (.error "Page size must be > 0", [])
  else if pageSize > 1000 then
    (.error "Page size must be <= 1000", [])
  else if sortColumnBad d sortBy then
    (.error ("Sort column " ++ sortBy.getD "" ++ " is not a valid column"), [])
  else if pyLower sortOrder ∉ ["asc", "desc"] then
    (.error "Sort order must be asc or desc", [])
  else
    let matched := t.rows.filter (rowMatches filters)
    let totalCount := matched.length
    if totalCount = 0 then
      (.ok ([], 0), [.countQ])
    else
      let sorted :=
        match sortBy with
        | none => matched
        | some col => sortRows (rowLe col (pyLower sortOrder = "desc")) matched
      let offset := ((page - 1) * pageSize).toNat
      (.ok ((sorted.drop offset).take pageSize.toNat, totalCount), [.countQ, .selectQ])

end BaseModel

/-! ## Constraint registry (utils/constraints.py)

The five built-in constraint classes.  `MinValueConstraint` /
`MaxValueConstraint` carry whatever scalar was passed to the constructor
(the constructor does not inspect it), `RegexConstraint` carries its
pattern string; `EmailConstraint` / `UrlConstraint` carry nothing. -/

/-- A built-in constraint instance. -/
inductive Constraint where
  | minValue (v : Value) : Constraint
  | maxValue (v : Value) : Constraint
  | email : Constraint
  | url : Constraint
  | regex (pattern : String) : Constraint
deriving Repr

/-- The `to_dict` of each constraint class (constraints.py lines 71-80,
120-129, 163-171, 205-213, 254-263). -/
def Constraint.toDict : Constraint → Dict
  | .minValue v => [("type", .str "min_value"), ("min_value", v)]
  | .maxValue v => [("type", .str "max_value"), ("max_value", v)]
  | .email => [("type", .str "email")]
  | .url => [("type", .str "url")]
  | .regex p => [("type", .str "regex"), ("pattern", .str p)]

/-- The `constraint_from_dict` (constraints.py lines 308-325): look up
`data.get("type")` in the registry — failing on an unknown tag — and
dispatch to the matching `from_dict`, which reads its payload key
(`data["min_value"]` etc.; a missing key raises `KeyError`, a non-string
regex pattern raises in `re.compile`). -/
def constraint_from_dict (data : Dict) : Except String Constraint :=
  match dictGet data "type" with
  | some (.str "min_value") =>
      match dictGet data "min_value" with
      | some v => .ok (.minValue v)
      | none => .error "KeyError: min_value"
  | some (.str "max_value") =>
      match dictGet data "max_value" with
      | some v => .ok (.maxValue v)
      | none => .error "KeyError: max_value"
  | some (.str "email") => .ok .email
  | some (.str "url") => .ok .url
  | some (.str "regex") =>
      match dictGet data "pattern" with
      | some (.str p) => .ok (.regex p)
      | some _ => .error "TypeError: pattern must be a string"
      | none => .error "KeyError: pattern"
  | t => .error ("Unknown constraint type: " ++ (t.getD .null).pyStr)

/-! ## Regular-expression semantics for `RegexConstraint.validate`

`RegexConstraint` compiles its pattern once and `validate` calls
`compiled_pattern.match(value)` (constraints.py line 252): Python `match`
semantics, i.e. some prefix of the value starting at position 0 is in the
pattern language.  The compiled pattern is embedded as a regular-expression
AST (parsing of Python pattern syntax is outside the embedding); `RMatch`
is the language membership relation and `matchFrom` the matcher whose
truthiness `bool(...)` observes. -/

/-- A compiled regular expression. -/
inductive Regex where
  | emptyset : Regex
  | epsilon : Regex
  | char (c : Char) : Regex
  | anychar : Regex
  | alt (r1 r2 : Regex) : Regex
  | cat (r1 r2 : Regex) : Regex
  | star (r : Regex) : Regex
deriving Repr, DecidableEq

/-- Language membership: `RMatch r l` holds when the character list `l` is
in the language of `r`. -/
inductive RMatch : Regex → List Char → Prop where
  | epsilon : RMatch .epsilon []
  | char (c : Char) : RMatch (.char c) [c]
  | anychar (c : Char) : RMatch .anychar [c]
  | altLeft {r1 r2 l} : RMatch r1 l → RMatch (.alt r1 r2) l
  | altRight {r1 r2 l} : RMatch r2 l → RMatch (.alt r1 r2) l
  | cat {r1 r2 l1 l2} : RMatch r1 l1 → RMatch r2 l2 → RMatch (.cat r1 r2) (l1 ++ l2)
  | starNil {r} : RMatch (.star r) []
  | starCons {r l1 l2} : l1 ≠ [] → RMatch r l1 → RMatch (.star r) l2 →
      RMatch (.star r) (l1 ++ l2)

/-- Whether the empty word is in the language. -/
def Regex.nullable : Regex → Bool
  | .emptyset => false
  | .epsilon => true
  | .char _ => false
  | .anychar => false
  | .alt r1 r2 => r1.nullable || r2.nullable
  | .cat r1 r2 => r1.nullable && r2.nullable
  | .star _ => true

/-- Brzozowski derivative with respect to one character. -/
def Regex.deriv : Regex → Char → Regex
  | .emptyset, _ => .emptyset
  | .epsilon, _ => .emptyset
  | .char c, a => if c = a then .epsilon else .emptyset
  | .anychar, _ => .epsilon
  | .alt r1 r2, a => .alt (r1.deriv a) (r2.deriv a)
  | .cat r1 r2, a =>
      if r1.nullable then .alt (.cat (r1.deriv a) r2) (r2.deriv a)
      else .cat (r1.deriv a) r2
  | .star r, a => .cat (r.deriv a) (.star r)

/-- The `bool(compiled.match(s))` on the character list of `s`: some prefix
(possibly empty), anchored at position 0, is in the language. -/
def Regex.matchFrom (r : Regex) : List Char → Bool
  | [] => r.nullable
  | a :: l => r.nullable || (r.deriv a).matchFrom l

/-- The `RegexConstraint.validate` (constraints.py lines 240-252): `False` for a
non-string value, otherwise the truthiness of `compiled_pattern.match`. -/
def RegexConstraint.validate (compiled : Regex) (value : Value) : Bool :=
  match value with
  | .str s => compiled.matchFrom s.data
  | _ => false

/-! ## The Variable entity (models/variable.py) -/

/-- An indexed field path such as `categories[0]`. -/
def idxPath (base : String) (i : Nat) : String :=
  base ++ "[" ++ toString i ++ "]"

/-- Python `needle in hay` on strings. -/
def strContains (hay needle : String) : Bool :=
  (hay.splitOn needle).length > 1

namespace Variable

/-- The `Variable.DATA_TYPES`. -/
def DATA_TYPES : List String := ["discrete", "continuous", "nominal", "ordinal", "text"]

/-- The `Variable.CATEGORICAL_TYPES`. -/
def CATEGORICAL_TYPES : List String := ["nominal", "ordinal"]

/-- The `data_type in cls.CATEGORICAL_TYPES` for an arbitrary dictionary value. -/
def isCategorical (dt : Value) : Bool :=
  CATEGORICAL_TYPES.any fun t => dt == .str t

/-- The message of the invalid-data-type error
(`f"Data type must be one of {cls.DATA_TYPES}"`; the Python repr quoting of
the list elements is elided). -/
def dataTypesMsg : String :=
  "Data type must be one of [discrete, continuous, nominal, ordinal, text]"

/-- The common shape of label validation: text presence and language keys
(variable.py lines 94-103 and 110-119), at path `base`. -/
def validateLabel (base : String) (label : Value) (r : ValidationResult) : ValidationResult :=
  match label with
  | .dict kvs =>
      let r1 :=
        match dictGet kvs "text" with
        | none => r.addError (base ++ ".text") "Label text is required"
        | some t => if !t.truthy then r.addError (base ++ ".text") "Label text is required" else r
      if (dictGet kvs "language_code").isNone && (dictGet kvs "language").isNone then
        r1.addError (base ++ ".language") "Either language_code or language is required"
      else r1
  | _ => r.addError base "Label must be a dictionary"

/-- The `Variable.validate_data` (variable.py lines 26-150), in source order:
required name and data type, the category-set requirement, and the
recursive validation of an inline category set, labels and constraints.
`Except` carries the exceptions the Python can raise (an `AttributeError`
from calling `isidentifier` on a non-string name). -/
def validate_data (data : Dict) : Except String ValidationResult := Id.run do
  let mut result := ValidationResult.empty

  -- Validate required fields
  match dictGet data "name" with
  | none => result := result.addError "name" "Name is required"
  | some v =>
      if !v.truthy then
        result := result.addError "name" "Name is required"
      else
        match v with
        | .str s =>
            if !validate_name s then
              result := result.addError "name"
                "Name must be a valid Python identifier and lowercase"
        | _ => return .error "AttributeError: isidentifier"

  match dictGet data "data_type" with
  | none => result := result.addError "data_type" "Data type is required"
  | some v =>
      if !v.truthy then
        result := result.addError "data_type" "Data type is required"
      else if !validate_data_type v DATA_TYPES then
        result := result.addError "data_type" dataTypesMsg

  -- Validate category set requirements
  match dictGet data "data_type" with
  | some dt =>
      if dt.truthy then
        let csId := dictGetD data "category_set_id"
        let cs := dictGetD data "category_set"
        if isCategorical dt && !csId.truthy && !cs.truthy then
          result := result.addError "category_set"
            ("Category set is required for " ++ dt.pyStr ++ " variables")
        else if !isCategorical dt && (csId.truthy || cs.truthy) then
          result := result.addWarning "category_set"
            ("Category set is not needed for " ++ dt.pyStr ++ " variables")
  | none => pure ()

  -- Validate category set if present
  match dictGet data "category_set" with
  | some cs =>
      if cs.truthy then
        match cs with
        | .dict csd => do
            -- Validate category set name
            match dictGet csd "name" with
            | none => result := result.addError "category_set.name" "Category set name is required"
            | some v =>
                if !v.truthy then
                  result := result.addError "category_set.name" "Category set name is required"
                else
                  match v with
                  | .str s =>
                      if !validate_name s then
                        result := result.addError "category_set.name"
                          "Category set name must be a valid Python identifier and lowercase"
                  | _ => return .error "AttributeError: isidentifier"
            -- Validate categories
            match dictGet csd "categories" with
            | none =>
                result := result.addError "category_set.categories"
                  "Categories are required for a category set"
            | some cats =>
                if !cats.truthy then
                  result := result.addError "category_set.categories"
                    "Categories are required for a category set"
                else
                  match cats with
                  | .list catList =>
                      for p in catList.enum do
                        let base := idxPath "category_set.categories" p.1
                        match p.2 with
                        | .dict catd => do
                            match dictGet catd "name" with
                            | none =>
                                result := result.addError (base ++ ".name")
                                  "Category name is required"
                            | some v =>
                                if !v.truthy then
                                  result := result.addError (base ++ ".name")
                                    "Category name is required"
                                else
                                  match v with
                                  | .str s =>
                                      if !validate_name s then
                                        result := result.addError (base ++ ".name")
                                          "Category name must be a valid Python identifier and lowercase"
                                  | _ => return .error "AttributeError: isidentifier"
                            -- Validate category labels
                            match dictGet catd "labels" with
                            | some labs =>
                                if labs.truthy then
                                  match labs with
                                  | .list labList =>
                                      for q in labList.enum do
                                        result := validateLabel
                                          (idxPath (base ++ ".labels") q.1) q.2 result
                                  | _ =>
                                      result := result.addError (base ++ ".labels")
                                        "Labels must be a list"
                            | none => pure ()
                        | _ =>
                            result := result.addError base "Category must be a dictionary"
                            continue
                  | _ =>
                      result := result.addError "category_set.categories"
                        "Categories must be a list"
        | _ => result := result.addError "category_set" "Category set must be a dictionary"
  | none => pure ()

  -- Validate labels
  match dictGet data "labels" with
  | some labs =>
      if labs.truthy then
        match labs with
        | .list labList =>
            for p in labList.enum do
              result := validateLabel (idxPath "labels" p.1) p.2 result
        | _ => result := result.addError "labels" "Labels must be a list"
  | none => pure ()

  -- Validate constraints
  match dictGet data "constraints" with
  | some cons =>
      if cons.truthy then
        match cons with
        | .list conList =>
            for p in conList.enum do
              let base := idxPath "constraints" p.1
              match p.2 with
              | .dict cond => do
                  match dictGet cond "type" with
                  | none => result := result.addError (base ++ ".type") "Constraint type is required"
                  | some t =>
                      if !t.truthy then
                        result := result.addError (base ++ ".type") "Constraint type is required"
                  let ct := dictGetD cond "type"
                  if ct == .str "range" then
                    if (dictGet cond "min").isNone && (dictGet cond "max").isNone then
                      result := result.addError base
                        "Range constraint must have at least one of min or max"
                  else if ct == .str "regex" then
                    match dictGet cond "pattern" with
                    | none =>
                        result := result.addError (base ++ ".pattern")
                          "Regex constraint must have a pattern"
                    | some pat =>
                        if !pat.truthy then
                          result := result.addError (base ++ ".pattern")
                            "Regex constraint must have a pattern"
                  else if ct == .str "enum" then
                    match dictGet cond "values" with
                    | none =>
                        result := result.addError (base ++ ".values")
                          "Enum constraint must have values"
                    | some vs =>
                        if !vs.truthy then
                          result := result.addError (base ++ ".values")
                            "Enum constraint must have values"
                        else
                          match vs with
                          | .list _ => pure ()
                          | _ =>
                              result := result.addError (base ++ ".values")
                                "Enum constraint values must be a list"
                  else if ct.truthy then
                    result := result.addWarning (base ++ ".type")
                      ("Unknown constraint type: " ++ ct.pyStr)
              | _ =>
                  result := result.addError base "Constraint must be a dictionary"
                  continue
        | _ => result := result.addError "constraints" "Constraints must be a list"
  | none => pure ()

  return .ok result

end Variable

/-- The schema-level enforcement of the `variables` table (db/schema.py
lines 47-63): `name` and `data_type` are NOT NULL, `name` is UNIQUE, and
the CHECK ties categorical data types to a category-set reference.
(Foreign-key enforcement would need the category-set table and is outside
this single-table embedding; no verified property exercises it.) -/
def variableInsertCheck (t : Table) (data : Dict) : Option String :=
  let name := dictGetD data "name"
  let dt := dictGetD data "data_type"
  let cs := dictGetD data "category_set_id"
  if name == .null then some "NOT NULL constraint failed: variables.name"
  else if dt == .null then some "NOT NULL constraint failed: variables.data_type"
  else if t.rows.any (fun r => dictGetD r.vals "name" == name) then
    some "UNIQUE constraint failed: variables.name"
  else if !(((dt == .str "nominal" || dt == .str "ordinal") && cs != .null) ||
      ((dt == .str "discrete" || dt == .str "continuous" || dt == .str "text") && cs == .null)) then
    some "CHECK constraint failed: variables"
  else none

/-- The same schema enforcement on an UPDATE of row `i` with the given
declared-column payload: the constraints are evaluated on the row as it
would be after the update, with `name` uniqueness checked against the
other rows. -/
def variableUpdateCheck (t : Table) (i : Nat) (updates : Dict) : Option String :=
  match t.rows.find? (fun r => r.id = i) with
  | none => none
  | some r =>
      let merged := BaseModel.applyUpdates r.vals updates
      let name := dictGetD merged "name"
      let dt := dictGetD merged "data_type"
      let cs := dictGetD merged "category_set_id"
      if name == .null then some "NOT NULL constraint failed: variables.name"
      else if dt == .null then some "NOT NULL constraint failed: variables.data_type"
      else if t.rows.any (fun r2 => r2.id ≠ i && dictGetD r2.vals "name" == name) then
        some "UNIQUE constraint failed: variables.name"
      else if !(((dt == .str "nominal" || dt == .str "ordinal") && cs != .null) ||
          ((dt == .str "discrete" || dt == .str "continuous" || dt == .str "text") && cs == .null)) then
        some "CHECK constraint failed: variables"
      else none

/-- The entity descriptor of `Variable` (variable.py lines 14-24): id
column `id`, the five declared columns, `validate_data`, and the
`variables` table schema enforcement. -/
def variableDescriptor : Descriptor where
  idColumn := "id"
  columns := ["name", "data_type", "category_set_id", "description", "reference"]
  validateData? := some Variable.validate_data
  insertCheck := variableInsertCheck
  updateCheck := variableUpdateCheck

namespace Variable

/-- The `None`-able scalar arguments of `create_with_validation`. -/
def optStr : Option String → Value
  | none => .null
  | some s => .str s

/-- The `None`-able id argument of `create_with_validation`. -/
def optInt : Option Int → Value
  | none => .null
  | some n => .int n

/-- The backward-compatibility scan of `create_with_validation`
(variable.py lines 271-277): the first validation error on field
`data_type`, or on field `category_set` with "required" in its message,
is re-raised as a `ValueError`. -/
def backCompatRaise (errs : List FieldError) : Option String :=
  errs.findSome? fun e =>
    if e.field = "data_type" then some e.message
    else if e.field = "category_set" && strContains e.message "required" then some e.message
    else none

/-- The `Variable.create_with_validation` (variable.py lines 236-286): build
the data dictionary, validate, re-raise the backward-compatibility errors,
return remaining validation failures as data, and only then insert. -/
def create_with_validation (name dataType : String) (categorySetId : Option Int)
    (description reference : Option String) (c : Conn) :
    Except String (Option Row × List FieldError × Conn) :=
  let data : Dict :=
    [("name", .str name), ("data_type", .str dataType),
     ("category_set_id", optInt categorySetId),
     ("description", optStr description), ("reference", optStr reference)]
  match validate_data data with
  | .error e => .error e
  | .ok vr =>
      if !vr.isValid then
        match backCompatRaise vr.errors with
        | some m => .error m
        | none => .ok (none, vr.errors, c)
      else
        match BaseModel.create variableDescriptor data c with
        | .error e => .error e
        | .ok (row, c2) => .ok (some row, [], c2)

end Variable

/-! ## Proof development -/

theorem dictGet_eq_none_of_not_mem : ∀ (us : Dict) (k : String),
    k ∉ us.map Prod.fst → dictGet us k = none
  | [], _, _ => rfl
  | (k1, v1) :: rest, k, h => by
      simp only [List.map_cons, List.mem_cons, not_or] at h
      have hne : k1 ≠ k := fun he => h.1 he.symm
      simp only [dictGet, if_neg hne]
      exact dictGet_eq_none_of_not_mem rest k h.2

theorem dictGet_eq_none_of_not_any (us : Dict) (k : String)
    (h : ¬ us.any fun kv => kv.1 = k) : dictGet us k = none := by
  refine dictGet_eq_none_of_not_mem us k fun hmem => h ?_
  rw [List.any_eq_true]
  obtain ⟨kv, hkv, hfst⟩ := List.mem_map.mp hmem
  exact ⟨kv, hkv, by simp [hfst]⟩

theorem dictGet_replaceKey_ne : ∀ (vals : Dict) (k : String) (v : Value) (k2 : String),
    k2 ≠ k → dictGet (replaceKey vals k v) k2 = dictGet vals k2
  | [], _, _, _, _ => rfl
  | (k1, v1) :: rest, k, v, k2, h => by
      by_cases hk : k1 = k
      · subst hk
        have h1 : ¬ (k1 = k2) := fun he => h he.symm
        simp only [replaceKey, if_pos rfl, dictGet, if_neg h1]
        exact dictGet_replaceKey_ne rest k1 v k2 h
      · simp only [replaceKey, if_neg hk, dictGet]
        by_cases hh : k1 = k2
        · simp [hh]
        · simp only [if_neg hh]
          exact dictGet_replaceKey_ne rest k v k2 h

theorem dictGet_setKey_self : ∀ (vals : Dict) (k : String) (v : Value),
    dictGet (setKey vals k v) k = some v
  | [], k, v => by simp [setKey, dictGet]
  | (k1, v1) :: rest, k, v => by
      by_cases hk : k1 = k
      · subst hk
        simp [setKey, dictGet]
      · simp only [setKey, if_neg hk, dictGet, if_neg hk]
        exact dictGet_setKey_self rest k v

theorem dictGet_setKey_ne : ∀ (vals : Dict) (k : String) (v : Value) (k2 : String),
    k2 ≠ k → dictGet (setKey vals k v) k2 = dictGet vals k2
  | [], k, v, k2, h => by
      have h1 : ¬ (k = k2) := fun he => h he.symm
      simp [setKey, dictGet, h1]
  | (k1, v1) :: rest, k, v, k2, h => by
      by_cases hk : k1 = k
      · subst hk
        have h1 : ¬ (k1 = k2) := fun he => h he.symm
        simp only [setKey, if_pos rfl, dictGet, if_neg h1]
        exact dictGet_replaceKey_ne rest k1 v k2 h
      · simp only [setKey, if_neg hk, dictGet]
        by_cases hh : k1 = k2
        · simp [hh]
        · simp only [if_neg hh]
          exact dictGet_setKey_ne rest k v k2 h

theorem dictGet_applyUpdates_of_none : ∀ (us : Dict) (vals : Dict) (k : String),
    dictGet us k = none →
    dictGet (BaseModel.applyUpdates vals us) k = dictGet vals k
  | [], _, _, _ => rfl
  | (k1, v1) :: rest, vals, k, h => by
      simp only [dictGet] at h
      by_cases hh : k1 = k
      · rw [if_pos hh] at h
        cases h
      · rw [if_neg hh] at h
        simp only [BaseModel.applyUpdates, List.foldl_cons]
        have h2 := dictGet_applyUpdates_of_none rest (setKey vals k1 v1) k h
        simp only [BaseModel.applyUpdates] at h2
        rw [h2, dictGet_setKey_ne vals k1 v1 k (fun he => hh he.symm)]

theorem dictGet_applyUpdates_of_some : ∀ (us : Dict) (vals : Dict) (k : String) (v : Value),
    (us.map Prod.fst).Nodup → dictGet us k = some v →
    dictGet (BaseModel.applyUpdates vals us) k = some v
  | [], _, _, _, _, h => by simp [dictGet] at h
  | (k1, v1) :: rest, vals, k, v, hnodup, h => by
      simp only [List.map_cons, List.nodup_cons] at hnodup
      simp only [BaseModel.applyUpdates, List.foldl_cons]
      by_cases hh : k1 = k
      · subst hh
        simp only [dictGet, if_pos rfl] at h
        have hrest : dictGet rest k1 = none :=
          dictGet_eq_none_of_not_mem rest k1 hnodup.1
        have h2 := dictGet_applyUpdates_of_none rest (setKey vals k1 v1) k1 hrest
        simp only [BaseModel.applyUpdates] at h2
        rw [h2, dictGet_setKey_self vals k1 v1]
        exact h
      · simp only [dictGet, if_neg hh] at h
        exact dictGet_applyUpdates_of_some rest (setKey vals k1 v1) k v hnodup.2 h

theorem dictGet_filter_key : ∀ (data : Dict) (p : String → Bool) (k : String),
    dictGet (data.filter fun kv => p kv.1) k =
      (if p k then dictGet data k else none)
  | [], p, k => by simp [dictGet]
  | (k1, v1) :: rest, p, k => by
      by_cases hk : k1 = k
      · subst hk
        by_cases hp : p k1
        · simp [List.filter_cons, hp, dictGet, dictGet_filter_key rest p k1]
        · simp [List.filter_cons, hp, dictGet, dictGet_filter_key rest p k1]
      · by_cases hp : p k1
        · simp [List.filter_cons, hp, dictGet, hk, dictGet_filter_key rest p k]
        · simp [List.filter_cons, hp, dictGet, hk, dictGet_filter_key rest p k]

theorem nodup_keys_filter (data : Dict) (p : (String × Value) → Bool)
    (h : (data.map Prod.fst).Nodup) : ((data.filter p).map Prod.fst).Nodup :=
  ((List.filter_sublist data).map Prod.fst).nodup h

theorem get_mem {t : Table} {n : Int} {row : Row} (h : BaseModel.get t n = some row) :
    row ∈ t.rows :=
  List.mem_of_find?_eq_some h

theorem get_id {t : Table} {n : Int} {row : Row} (h : BaseModel.get t n = some row) :
    (row.id : Int) = n := by
  have := List.find?_some h
  exact of_decide_eq_true this

theorem createApply_ok {d : Descriptor} {item : Dict} {c : Conn} {row : Row} {c2 : Conn}
    (h : createApply d item c = .ok row c2) :
    c2.current = c2.committed ∧ c2.current.rows = c.current.rows ++ [row] := by
  unfold createApply BaseModel.create at h
  cases hic : d.insertCheck c.current item with
  | some e =>
      simp only [hic] at h
      exact Step.noConfusion h
  | none =>
      simp only [hic] at h
      cases h
      exact ⟨rfl, rfl⟩

theorem createStep_ok {d : Descriptor} {v so : Bool} {item : Dict} {c : Conn}
    {row : Row} {c2 : Conn} (h : createStep d v so item c = .ok row c2) :
    c2.current = c2.committed ∧ c2.current.rows = c.current.rows ++ [row] := by
  unfold createStep at h
  cases hv : (if v then d.validateData? else none) with
  | none =>
      simp only [hv] at h
      exact createApply_ok h
  | some f =>
      simp only [hv] at h
      cases hf : f item with
      | error e =>
          simp only [hf] at h
          exact Step.noConfusion h
      | ok vr =>
          simp only [hf] at h
          by_cases hvr : vr.isValid
          · rw [if_pos hvr] at h
            exact createApply_ok h
          · rw [if_neg hvr] at h
            exact Step.noConfusion h

theorem checkedFail_spec (so : Bool) (first : BulkError) (item : Dict) (msg : String)
    (hfirst : first.dataOf = some item) :
    checkedFail so first item msg ≠ [] ∧ (checkedFail so first item msg).length ≤ 2 ∧
      (so = false → (checkedFail so first item msg).length = 1) ∧
      ∀ e ∈ checkedFail so first item msg, e.dataOf = some item := by
  unfold checkedFail
  cases so with
  | true =>
      refine ⟨by simp, by simp, by simp, ?_⟩
      intro e he
      simp at he
      rcases he with he | he
      · rw [he]; exact hfirst
      · rw [he]; rfl
  | false =>
      refine ⟨by simp, by simp, by simp, ?_⟩
      intro e he
      simp at he
      rw [he]; exact hfirst

theorem createStep_fail {d : Descriptor} {v so : Bool} {item : Dict} {c : Conn}
    {es : List BulkError} (h : createStep d v so item c = .fail es) :
    es ≠ [] ∧ es.length ≤ 2 ∧ (so = false → es.length = 1) ∧
      ∀ e ∈ es, e.dataOf = some item := by
  have happly : ∀ es2, createApply d item c = .fail es2 →
      es2 ≠ [] ∧ es2.length ≤ 2 ∧ (so = false → es2.length = 1) ∧
        ∀ e ∈ es2, e.dataOf = some item := by
    intro es2 h2
    unfold createApply at h2
    cases hc : BaseModel.create d item c with
    | error e =>
        simp only [hc] at h2
        cases h2
        exact ⟨by simp, by simp, by simp, by intro e2 he2; simp at he2; rw [he2]; rfl⟩
    | ok rc =>
        simp only [hc] at h2
        exact Step.noConfusion h2
  unfold createStep at h
  cases hv : (if v then d.validateData? else none) with
  | none =>
      simp only [hv] at h
      exact happly es h
  | some f =>
      simp only [hv] at h
      cases hf : f item with
      | error e =>
          simp only [hf] at h
          cases h
          exact ⟨by simp, by simp, by simp, by intro e2 he2; simp at he2; rw [he2]; rfl⟩
      | ok vr =>
          simp only [hf] at h
          by_cases hvr : vr.isValid
          · rw [if_pos hvr] at h
            exact happly es h
          · rw [if_neg hvr] at h
            cases h
            exact checkedFail_spec so _ item _ rfl

theorem map_row_id_update (rows : List Row) (i : Nat) (us : Dict) :
    ((rows.map fun r =>
        if r.id = i then (⟨r.id, BaseModel.applyUpdates r.vals us⟩ : Row) else r).map Row.id)
      = rows.map Row.id := by
  induction rows with
  | nil => rfl
  | cons r rest ih =>
      by_cases hr : r.id = i
      · simp only [List.map_cons, if_pos hr, ih]
      · simp only [List.map_cons, if_neg hr, ih]

theorem update_ok {d : Descriptor} {inst : Instance} {data : Dict} {c : Conn}
    {inst2 : Instance} {c2 : Conn}
    (h : BaseModel.update d inst data c = .ok (inst2, c2)) :
    inst2.id = inst.id ∧ (c.current = c.committed → c2.current = c2.committed) ∧
      c2.current.rows.map Row.id = c.current.rows.map Row.id := by
  unfold BaseModel.update at h
  cases hid : inst.id with
  | none =>
      simp only [hid] at h
      exact Except.noConfusion h
  | some i =>
      simp only [hid] at h
      by_cases hemp : (BaseModel.declaredUpdates d data).isEmpty
      · rw [if_pos hemp] at h
        cases h
        exact ⟨rfl, fun hs => hs, rfl⟩
      · rw [if_neg hemp] at h
        cases hchk : d.updateCheck c.current i (BaseModel.declaredUpdates d data) with
        | some e =>
            simp only [hchk] at h
            exact Except.noConfusion h
        | none =>
            simp only [hchk] at h
            cases h
            exact ⟨rfl, fun _ => rfl,
              map_row_id_update c.current.rows i (BaseModel.declaredUpdates d data)⟩

theorem updateApply_ok {d : Descriptor} {inst : Instance} {updateData item : Dict}
    {c : Conn} {inst2 : Instance} {c2 : Conn}
    (h : updateApply d inst updateData item c = .ok inst2 c2) :
    inst2.id = inst.id ∧ (c.current = c.committed → c2.current = c2.committed) ∧
      c2.current.rows.map Row.id = c.current.rows.map Row.id := by
  unfold updateApply at h
  cases hu : BaseModel.update d inst updateData c with
  | error e =>
      simp only [hu] at h
      exact Step.noConfusion h
  | ok p =>
      obtain ⟨inst3, c3⟩ := p
      simp only [hu] at h
      cases h
      exact update_ok hu

theorem updateStep_ok {d : Descriptor} {v so : Bool} {item : Dict} {c : Conn}
    {inst2 : Instance} {c2 : Conn} (h : updateStep d v so item c = .ok inst2 c2) :
    (c.current = c.committed → c2.current = c2.committed) ∧
      (∃ rid, inst2.id = some rid ∧ rid ∈ c.current.rows.map Row.id) ∧
      c2.current.rows.map Row.id = c.current.rows.map Row.id := by
  unfold updateStep at h
  split at h
  · exact Step.noConfusion h
  next idv hg =>
    split at h
    · exact Step.noConfusion h
    next hnull =>
      split at h
      · exact Step.noConfusion h
      next row hrow =>
        have hmem : row ∈ c.current.rows := by
          cases idv with
          | int n => exact get_mem hrow
          | null => simp at hrow
          | bool b => simp at hrow
          | str s => simp at hrow
          | list xs => simp at hrow
          | dict kvs => simp at hrow
        have hout : ∀ upd2 : Dict,
            updateApply d ⟨some row.id, projectCols d.columns row.vals⟩ upd2 item c
              = .ok inst2 c2 →
            (c.current = c.committed → c2.current = c2.committed) ∧
              (∃ rid, inst2.id = some rid ∧ rid ∈ c.current.rows.map Row.id) ∧
              c2.current.rows.map Row.id = c.current.rows.map Row.id := by
          intro upd2 h2
          obtain ⟨hi, hs, hm⟩ := updateApply_ok h2
          exact ⟨hs, ⟨row.id, hi, List.mem_map_of_mem Row.id hmem⟩, hm⟩
        split at h
        · exact hout _ h
        next f hv =>
          dsimp only [] at h
          split at h
          · exact Step.noConfusion h
          next vr hf =>
            split at h
            · exact hout _ h
            · exact Step.noConfusion h

theorem updateStep_fail {d : Descriptor} {v so : Bool} {item : Dict} {c : Conn}
    {es : List BulkError} (h : updateStep d v so item c = .fail es) :
    es ≠ [] ∧ es.length ≤ 2 ∧ (so = false → es.length = 1) ∧
      ∀ e ∈ es, e.dataOf = some item := by
  have happly : ∀ (inst : Instance) (upd2 : Dict) es2,
      updateApply d inst upd2 item c = .fail es2 →
      es2 ≠ [] ∧ es2.length ≤ 2 ∧ (so = false → es2.length = 1) ∧
        ∀ e ∈ es2, e.dataOf = some item := by
    intro inst upd2 es2 h2
    unfold updateApply at h2
    cases hu : BaseModel.update d inst upd2 c with
    | error e =>
        simp only [hu] at h2
        cases h2
        exact ⟨by simp, by simp, by simp, by intro e2 he2; simp at he2; rw [he2]; rfl⟩
    | ok p =>
        obtain ⟨inst3, c3⟩ := p
        simp only [hu] at h2
        exact Step.noConfusion h2
  unfold updateStep at h
  split at h
  · cases h
    exact checkedFail_spec so _ item _ rfl
  next idv hg =>
    split at h
    · cases h
      exact checkedFail_spec so _ item _ rfl
    next hnull =>
      split at h
      · cases h
        exact checkedFail_spec so _ item _ rfl
      next row hrow =>
        split at h
        · exact happly _ _ es h
        next f hv =>
          dsimp only [] at h
          split at h
          · cases h
            exact ⟨by simp, by simp, by simp, by intro e2 he2; simp at he2; rw [he2]; rfl⟩
          next vr hf =>
            split at h
            · exact happly _ _ es h
            · cases h
              exact checkedFail_spec so _ item _ rfl

theorem deleteIdStep_ok {d : Descriptor} {so : Bool} {i : Int} {c : Conn}
    {j : Int} {c2 : Conn} (h : deleteIdStep d so i c = .ok j c2) :
    j = i ∧ c2.current = c2.committed ∧ (∀ r ∈ c2.current.rows, (r.id : Int) ≠ i) ∧
      ∀ r ∈ c2.current.rows, r ∈ c.current.rows := by
  unfold deleteIdStep deleteStep at h
  cases hg : BaseModel.get c.current i with
  | none =>
      simp only [hg] at h
      exact Step.noConfusion h
  | some row =>
      simp only [hg] at h
      unfold BaseModel.delete at h
      simp only [] at h
      cases h
      have hrowid : (row.id : Int) = i := get_id hg
      refine ⟨rfl, rfl, ?_, ?_⟩
      · intro r hr
        simp only [Conn.commit, List.mem_filter] at hr
        intro hri
        have : r.id = row.id := by
          have : (r.id : Int) = (row.id : Int) := by rw [hrowid, hri]
          exact_mod_cast this
        rw [this] at hr
        simp at hr
      · intro r hr
        simp only [Conn.commit, List.mem_filter] at hr
        exact hr.1

theorem deleteIdStep_fail {d : Descriptor} {so : Bool} {i : Int} {c : Conn}
    {es : List BulkError} (h : deleteIdStep d so i c = .fail es) :
    es ≠ [] ∧ es.length ≤ 2 ∧ (so = false → es.length = 1) ∧
      ∀ e ∈ es, e.dataOf = some [("id", Value.int i)] := by
  unfold deleteIdStep deleteStep at h
  cases hg : BaseModel.get c.current i with
  | none =>
      simp only [hg] at h
      cases h
      exact checkedFail_spec so _ _ _ rfl
  | some row =>
      simp only [hg] at h
      unfold BaseModel.delete at h
      simp only [] at h
      exact Step.noConfusion h

theorem bulkLoop_length {ι α : Type} (step : ι → Conn → Step α)
    (hstep : ∀ i c es, step i c = .fail es → es.length = 1) :
    ∀ (items : List ι) (c : Conn) (succ : List α) (errs : List BulkError),
      (bulkLoop false step items c succ errs).1.length +
          (bulkLoop false step items c succ errs).2.1.length =
        succ.length + errs.length + items.length := by
  intro items
  induction items with
  | nil =>
      intro c succ errs
      simp [bulkLoop]
  | cons i rest ih =>
      intro c succ errs
      cases hs : step i c with
      | ok a c2 =>
          simp only [bulkLoop, hs]
          rw [ih c2 (succ ++ [a]) errs]
          simp only [List.length_append, List.length_cons, List.length_nil]
          omega
      | fail es =>
          simp only [bulkLoop, hs, Bool.false_eq_true, if_false]
          rw [ih c succ (errs ++ es)]
          have := hstep i c es hs
          simp only [List.length_append, List.length_cons, this]
          omega

theorem bulkLoop_errs {ι α : Type} (step : ι → Conn → Step α)
    (hstep : ∀ i c es, step i c = .fail es →
      es.length ≤ 2 ∧ ∃ data, ∀ e ∈ es, e.dataOf = some data) :
    ∀ (items : List ι) (c : Conn) (succ : List α) (errs : List BulkError),
      ∃ es2, (bulkLoop true step items c succ errs).2.1 = errs ++ es2 ∧
        es2.length ≤ 2 ∧ ∀ e1 ∈ es2, ∀ e2 ∈ es2, e1.dataOf = e2.dataOf := by
  intro items
  induction items with
  | nil =>
      intro c succ errs
      exact ⟨[], by simp [bulkLoop], by simp, by simp⟩
  | cons i rest ih =>
      intro c succ errs
      cases hs : step i c with
      | ok a c2 =>
          simp only [bulkLoop, hs]
          exact ih c2 (succ ++ [a]) errs
      | fail es =>
          simp only [bulkLoop, hs, if_true]
          obtain ⟨hlen, data, hdata⟩ := hstep i c es hs
          exact ⟨es, rfl, hlen, fun e1 he1 e2 he2 => by
            rw [hdata e1 he1, hdata e2 he2]⟩

theorem bulkLoop_take {ι α : Type} (step : ι → Conn → Step α)
    (hstep : ∀ i c es, step i c = .fail es → es ≠ []) :
    ∀ (items : List ι) (c : Conn) (succ : List α) (errs : List BulkError),
      ∃ k, k ≤ items.length ∧
        bulkLoop true step items c succ errs = bulkLoop true step (items.take k) c succ errs ∧
        ((bulkLoop true step items c succ errs).2.1 = errs → k = items.length) := by
  intro items
  induction items with
  | nil =>
      intro c succ errs
      exact ⟨0, Nat.le_refl 0, rfl, fun _ => rfl⟩
  | cons i rest ih =>
      intro c succ errs
      cases hs : step i c with
      | ok a c2 =>
          obtain ⟨k, hk, heq, hcond⟩ := ih c2 (succ ++ [a]) errs
          refine ⟨k + 1, by simp only [List.length_cons]; omega, ?_, ?_⟩
          · rw [List.take_succ_cons]
            simp only [bulkLoop, hs]
            exact heq
          · intro hcnd
            simp only [bulkLoop, hs] at hcnd
            rw [hcond hcnd, List.length_cons]
      | fail es =>
          refine ⟨1, by simp only [List.length_cons]; omega, ?_, ?_⟩
          · rw [List.take_succ_cons, List.take_zero]
            simp only [bulkLoop, hs]
            simp
          · intro hcnd
            simp only [bulkLoop, hs, if_true] at hcnd
            have hlen := congrArg List.length hcnd
            simp only [List.length_append] at hlen
            have : es.length = 0 := by omega
            exact absurd (List.eq_nil_of_length_eq_zero this) (hstep i c es hs)

theorem bulkLoop_persist {ι α : Type} (step : ι → Conn → Step α)
    (P : α → Table → Prop)
    (hstep : ∀ i c a c2, step i c = .ok a c2 →
      (c.current = c.committed → c2.current = c2.committed) ∧ P a c2.current ∧
        ∀ b, P b c.current → P b c2.current) :
    ∀ (so : Bool) (items : List ι) (c : Conn) (succ : List α) (errs : List BulkError),
      c.current = c.committed → (∀ a ∈ succ, P a c.current) →
      ∀ a ∈ (bulkLoop so step items c succ errs).1,
        P a (bulkLoop so step items c succ errs).2.2.committed := by
  intro so items
  induction items with
  | nil =>
      intro c succ errs hsync hsucc a ha
      simp only [bulkLoop] at ha ⊢
      have : (Conn.commit c).committed = c.current := rfl
      rw [this]
      exact hsucc a ha
  | cons i rest ih =>
      intro c succ errs hsync hsucc
      cases hs : step i c with
      | ok a2 c2 =>
          obtain ⟨hs1, hs2, hs3⟩ := hstep i c a2 c2 hs
          intro a ha
          simp only [bulkLoop, hs] at ha ⊢
          refine ih c2 (succ ++ [a2]) errs (hs1 hsync) ?_ a ha
          intro b hb
          rcases List.mem_append.mp hb with hb | hb
          · exact hs3 b (hsucc b hb)
          · simp only [List.mem_singleton] at hb
            rw [hb]
            exact hs2
      | fail es =>
          cases so with
          | true =>
              intro a ha
              simp only [bulkLoop, hs, if_true] at ha ⊢
              have : (Conn.rollback c).committed = c.committed := rfl
              rw [this, ← hsync]
              exact hsucc a ha
          | false =>
              intro a ha
              simp only [bulkLoop, hs, Bool.false_eq_true, if_false] at ha ⊢
              exact ih c succ (errs ++ es) hsync hsucc a ha

theorem RMatch.nullable_of_nil {r : Regex} {l : List Char} (h : RMatch r l) :
    l = [] → r.nullable = true := by
  induction h with
  | epsilon => intro; rfl
  | char c => intro h2; nomatch h2
  | anychar c => intro h2; nomatch h2
  | altLeft h ih => intro h2; simp [Regex.nullable, ih h2]
  | altRight h ih => intro h2; simp [Regex.nullable, ih h2]
  | cat h1 h2 ih1 ih2 =>
      intro h3
      obtain ⟨e1, e2⟩ := List.append_eq_nil.mp h3
      simp [Regex.nullable, ih1 e1, ih2 e2]
  | starNil => intro; rfl
  | starCons hne h1 h2 ih1 ih2 => intro; rfl

theorem matches_nil_of_nullable : ∀ r : Regex, r.nullable = true → RMatch r []
  | .emptyset, h => by simp [Regex.nullable] at h
  | .epsilon, _ => .epsilon
  | .char c, h => by simp [Regex.nullable] at h
  | .anychar, h => by simp [Regex.nullable] at h
  | .alt r1 r2, h => by
      simp only [Regex.nullable, Bool.or_eq_true] at h
      rcases h with h | h
      · exact .altLeft (matches_nil_of_nullable r1 h)
      · exact .altRight (matches_nil_of_nullable r2 h)
  | .cat r1 r2, h => by
      simp only [Regex.nullable, Bool.and_eq_true] at h
      exact (RMatch.cat (matches_nil_of_nullable r1 h.1) (matches_nil_of_nullable r2 h.2) :
        RMatch _ ([] ++ []))
  | .star r, _ => .starNil

theorem RMatch.deriv_of_match {r : Regex} {l0 : List Char} (h : RMatch r l0) :
    ∀ (a : Char) (l : List Char), l0 = a :: l → RMatch (r.deriv a) l := by
  induction h with
  | epsilon => intro a l h2; nomatch h2
  | char c =>
      intro a l h2
      injection h2 with h3 h4
      subst h3
      rw [← h4]
      simp only [Regex.deriv, if_pos rfl]
      exact .epsilon
  | anychar c =>
      intro a l h2
      injection h2 with h3 h4
      rw [← h4]
      exact .epsilon
  | altLeft h ih => intro a l h2; exact .altLeft (ih a l h2)
  | altRight h ih => intro a l h2; exact .altRight (ih a l h2)
  | cat h1 h2 ih1 ih2 =>
      rename_i r1 r2 l1 l2
      intro a l h3
      cases l1 with
      | nil =>
          simp only [List.nil_append] at h3
          have hn : r1.nullable = true := h1.nullable_of_nil rfl
          simp only [Regex.deriv, hn, if_true]
          exact .altRight (ih2 a l h3)
      | cons b l1t =>
          simp only [List.cons_append, List.cons.injEq] at h3
          obtain ⟨hb, hl⟩ := h3
          subst hb
          rw [← hl]
          by_cases hn : r1.nullable
          · simp only [Regex.deriv, hn, if_true]
            exact .altLeft (RMatch.cat (ih1 b l1t rfl) h2)
          · simp only [Regex.deriv, hn, Bool.false_eq_true, if_false]
            exact RMatch.cat (ih1 b l1t rfl) h2
  | starNil => intro a l h2; nomatch h2
  | starCons hne h1 h2 ih1 ih2 =>
      rename_i r l1 l2
      intro a l h3
      cases l1 with
      | nil => exact absurd rfl hne
      | cons b l1t =>
          simp only [List.cons_append, List.cons.injEq] at h3
          obtain ⟨hb, hl⟩ := h3
          subst hb
          rw [← hl]
          exact RMatch.cat (ih1 b l1t rfl) h2

theorem match_of_deriv : ∀ (r : Regex) (a : Char) (l : List Char),
    RMatch (r.deriv a) l → RMatch r (a :: l)
  | .emptyset, a, l, h => by cases h
  | .epsilon, a, l, h => by
      simp only [Regex.deriv] at h
      cases h
  | .char c, a, l, h => by
      simp only [Regex.deriv] at h
      by_cases hc : c = a
      · rw [if_pos hc] at h
        cases h
        rw [hc]
        exact .char a
      · rw [if_neg hc] at h
        cases h
  | .anychar, a, l, h => by
      simp only [Regex.deriv] at h
      cases h
      exact .anychar a
  | .alt r1 r2, a, l, h => by
      simp only [Regex.deriv] at h
      cases h with
      | altLeft h => exact .altLeft (match_of_deriv r1 a l h)
      | altRight h => exact .altRight (match_of_deriv r2 a l h)
  | .cat r1 r2, a, l, h => by
      simp only [Regex.deriv] at h
      by_cases hn : r1.nullable
      · rw [if_pos hn] at h
        cases h with
        | altLeft h =>
            cases h with
            | cat h1 h2 =>
                rename_i l1 l2
                exact (RMatch.cat (match_of_deriv r1 a l1 h1) h2 :
                  RMatch _ ((a :: l1) ++ l2))
        | altRight h =>
            exact (RMatch.cat (matches_nil_of_nullable r1 hn)
              (match_of_deriv r2 a l h) : RMatch _ ([] ++ (a :: l)))
      · rw [if_neg hn] at h
        cases h with
        | cat h1 h2 =>
            rename_i l1 l2
            exact (RMatch.cat (match_of_deriv r1 a l1 h1) h2 :
              RMatch _ ((a :: l1) ++ l2))
  | .star r, a, l, h => by
      simp only [Regex.deriv] at h
      cases h with
      | cat h1 h2 =>
          rename_i l1 l2
          exact (RMatch.starCons (by simp) (match_of_deriv r a l1 h1) h2 :
            RMatch _ ((a :: l1) ++ l2))

theorem matchFrom_iff : ∀ (r : Regex) (l : List Char),
    r.matchFrom l = true ↔ ∃ l1 l2, l = l1 ++ l2 ∧ RMatch r l1
  | r, [] => by
      simp only [Regex.matchFrom]
      constructor
      · intro h
        exact ⟨[], [], rfl, matches_nil_of_nullable r h⟩
      · rintro ⟨l1, l2, heq, hm⟩
        obtain ⟨e1, e2⟩ := List.append_eq_nil.mp heq.symm
        subst e1
        exact hm.nullable_of_nil rfl
  | r, a :: l => by
      simp only [Regex.matchFrom, Bool.or_eq_true]
      constructor
      · rintro (h | h)
        · exact ⟨[], a :: l, rfl, matches_nil_of_nullable r h⟩
        · obtain ⟨l1, l2, heq, hm⟩ := (matchFrom_iff (r.deriv a) l).mp h
          exact ⟨a :: l1, l2, by rw [heq]; rfl, match_of_deriv r a l1 hm⟩
      · rintro ⟨l1, l2, heq, hm⟩
        cases l1 with
        | nil =>
            left
            simp only [List.nil_append] at heq
            exact hm.nullable_of_nil rfl
        | cons b l1t =>
            right
            simp only [List.cons_append, List.cons.injEq] at heq
            obtain ⟨hb, hl⟩ := heq
            subst hb
            exact (matchFrom_iff (r.deriv a) l).mpr ⟨l1t, l2, hl, hm.deriv_of_match a l1t rfl⟩

theorem createStep_persist (d : Descriptor) (v so : Bool) :
    ∀ (i : Dict) (c : Conn) (a : Row) (c2 : Conn), createStep d v so i c = .ok a c2 →
      (c.current = c.committed → c2.current = c2.committed) ∧ a ∈ c2.current.rows ∧
        ∀ b : Row, b ∈ c.current.rows → b ∈ c2.current.rows := by
  intro i c a c2 h
  obtain ⟨hsync, hrows⟩ := createStep_ok h
  refine ⟨fun _ => hsync, ?_, ?_⟩
  · rw [hrows]
    simp
  · intro b hb
    rw [hrows]
    exact List.mem_append_left _ hb

theorem updateStep_persist (d : Descriptor) (v so : Bool) :
    ∀ (i : Dict) (c : Conn) (a : Instance) (c2 : Conn), updateStep d v so i c = .ok a c2 →
      (c.current = c.committed → c2.current = c2.committed) ∧
        (∃ rid, a.id = some rid ∧ rid ∈ c2.current.rows.map Row.id) ∧
        ∀ b : Instance, (∃ rid, b.id = some rid ∧ rid ∈ c.current.rows.map Row.id) →
          ∃ rid, b.id = some rid ∧ rid ∈ c2.current.rows.map Row.id := by
  intro i c a c2 h
  obtain ⟨hsync, ⟨rid, hid, hmem⟩, hmap⟩ := updateStep_ok h
  refine ⟨hsync, ⟨rid, hid, by rw [hmap]; exact hmem⟩, ?_⟩
  rintro b ⟨rid2, hid2, hmem2⟩
  exact ⟨rid2, hid2, by rw [hmap]; exact hmem2⟩

theorem deleteIdStep_persist (d : Descriptor) (so : Bool) :
    ∀ (i : Int) (c : Conn) (a : Int) (c2 : Conn), deleteIdStep d so i c = .ok a c2 →
      (c.current = c.committed → c2.current = c2.committed) ∧
        (∀ r ∈ c2.current.rows, (r.id : Int) ≠ a) ∧
        ∀ b : Int, (∀ r ∈ c.current.rows, (r.id : Int) ≠ b) →
          ∀ r ∈ c2.current.rows, (r.id : Int) ≠ b := by
  intro i c a c2 h
  obtain ⟨hj, hsync, habsent, hsub⟩ := deleteIdStep_ok h
  subst hj
  exact ⟨fun _ => hsync, habsent, fun b hb r hr => hb r (hsub r hr)⟩

/-- C4: every bulk operation on the empty list returns an empty success
list with an empty error list and leaves the durable store untouched. -/
theorem bulk_empty_inputs (d : Descriptor) (validate stopOnError : Bool) (s : Table) :
    bulkCreate d [] validate stopOnError s = ([], [], s) ∧
      bulkUpdate d [] validate stopOnError s = ([], [], s) ∧
      bulkDelete d [] stopOnError s = ([], [], s) :=
  ⟨rfl, rfl, rfl⟩

/-- C2: with `stop_on_error = false` every input item of every bulk
operation lands in exactly one of the two outcome lists (the lengths of
the success and error lists sum to the input length), and the commit at
the end persists every partial success: every created row is in the final
table, every updated instance id still names a row of the final table,
and every deleted id is absent from the final table. -/
theorem bulk_continue_partition (d : Descriptor) (validate : Bool)
    (items updItems : List Dict) (delIds : List Int) (s : Table) :
    ((bulkCreate d items validate false s).1.length +
        (bulkCreate d items validate false s).2.1.length = items.length ∧
      ∀ r ∈ (bulkCreate d items validate false s).1,
        r ∈ (bulkCreate d items validate false s).2.2.rows) ∧
    ((bulkUpdate d updItems validate false s).1.length +
        (bulkUpdate d updItems validate false s).2.1.length = updItems.length ∧
      ∀ inst ∈ (bulkUpdate d updItems validate false s).1,
        ∃ rid, inst.id = some rid ∧
          rid ∈ (bulkUpdate d updItems validate false s).2.2.rows.map Row.id) ∧
    ((bulkDelete d delIds false s).1.length +
        (bulkDelete d delIds false s).2.1.length = delIds.length ∧
      ∀ i ∈ (bulkDelete d delIds false s).1,
        ∀ r ∈ (bulkDelete d delIds false s).2.2.rows, (r.id : Int) ≠ i) := by
  refine ⟨⟨?_, ?_⟩, ⟨?_, ?_⟩, ⟨?_, ?_⟩⟩
  · have h := bulkLoop_length (createStep d validate false)
      (fun i c es hf => (createStep_fail hf).2.2.1 rfl) items (Conn.fresh s) [] []
    simpa [bulkCreate] using h
  · have h := bulkLoop_persist (createStep d validate false) (fun r t => r ∈ t.rows)
      (createStep_persist d validate false) false items (Conn.fresh s) [] [] rfl
      (by intro a ha; cases ha)
    simpa [bulkCreate] using h
  · have h := bulkLoop_length (updateStep d validate false)
      (fun i c es hf => (updateStep_fail hf).2.2.1 rfl) updItems (Conn.fresh s) [] []
    simpa [bulkUpdate] using h
  · have h := bulkLoop_persist (updateStep d validate false)
      (fun inst t => ∃ rid, inst.id = some rid ∧ rid ∈ t.rows.map Row.id)
      (updateStep_persist d validate false) false updItems (Conn.fresh s) [] [] rfl
      (by intro a ha; cases ha)
    simpa [bulkUpdate] using h
  · have h := bulkLoop_length (deleteIdStep d false)
      (fun i c es hf => (deleteIdStep_fail hf).2.2.1 rfl) delIds (Conn.fresh s) [] []
    simpa [bulkDelete] using h
  · have h := bulkLoop_persist (deleteIdStep d false)
      (fun i t => ∀ r ∈ t.rows, (r.id : Int) ≠ i)
      (deleteIdStep_persist d false) false delIds (Conn.fresh s) [] [] rfl
      (by intro a ha; cases ha)
    simpa [bulkDelete] using h

theorem item_data_of_createStep {d : Descriptor} {v so : Bool} {item : Dict} {c : Conn}
    {es : List BulkError} (hf : createStep d v so item c = .fail es) :
    ∃ data, ∀ e ∈ es, e.dataOf = some data :=
  ⟨item, (createStep_fail hf).2.2.2⟩

theorem item_data_of_updateStep {d : Descriptor} {v so : Bool} {item : Dict} {c : Conn}
    {es : List BulkError} (hf : updateStep d v so item c = .fail es) :
    ∃ data, ∀ e ∈ es, e.dataOf = some data :=
  ⟨item, (updateStep_fail hf).2.2.2⟩

theorem id_data_of_deleteStep {d : Descriptor} {so : Bool} {i : Int} {c : Conn}
    {es : List BulkError} (hf : deleteIdStep d so i c = .fail es) :
    ∃ data, ∀ e ∈ es, e.dataOf = some data :=
  ⟨[("id", Value.int i)], (deleteIdStep_fail hf).2.2.2⟩

/-- C1 (amended): with `stop_on_error = true`, for every bulk operation the
first failing item aborts the loop immediately — the outcome equals the
outcome on some prefix of the input, the whole input only when there was no
error — and the error list refers to that single failing item (at most two
entries, all carrying the same item data: the recorded entry plus the one
the per-item handler adds for the re-raised stop exception).  The rollback,
however, does not erase prior successes: each was committed by its per-item
commit, so every returned success is still in the durable table (for
deletes: stays deleted). -/
theorem bulk_stop_on_error_amended (d : Descriptor) (validate : Bool)
    (items updItems : List Dict) (delIds : List Int) (s : Table) :
    ((bulkCreate d items validate true s).2.1.length ≤ 2 ∧
      (∀ e1 ∈ (bulkCreate d items validate true s).2.1,
        ∀ e2 ∈ (bulkCreate d items validate true s).2.1, e1.dataOf = e2.dataOf) ∧
      (∃ k, k ≤ items.length ∧
        bulkCreate d items validate true s = bulkCreate d (items.take k) validate true s ∧
        ((bulkCreate d items validate true s).2.1 = [] → k = items.length)) ∧
      ∀ r ∈ (bulkCreate d items validate true s).1,
        r ∈ (bulkCreate d items validate true s).2.2.rows) ∧
    ((bulkUpdate d updItems validate true s).2.1.length ≤ 2 ∧
      (∀ e1 ∈ (bulkUpdate d updItems validate true s).2.1,
        ∀ e2 ∈ (bulkUpdate d updItems validate true s).2.1, e1.dataOf = e2.dataOf) ∧
      (∃ k, k ≤ updItems.length ∧
        bulkUpdate d updItems validate true s = bulkUpdate d (updItems.take k) validate true s ∧
        ((bulkUpdate d updItems validate true s).2.1 = [] → k = updItems.length)) ∧
      ∀ inst ∈ (bulkUpdate d updItems validate true s).1,
        ∃ rid, inst.id = some rid ∧
          rid ∈ (bulkUpdate d updItems validate true s).2.2.rows.map Row.id) ∧
    ((bulkDelete d delIds true s).2.1.length ≤ 2 ∧
      (∀ e1 ∈ (bulkDelete d delIds true s).2.1,
        ∀ e2 ∈ (bulkDelete d delIds true s).2.1, e1.dataOf = e2.dataOf) ∧
      (∃ k, k ≤ delIds.length ∧
        bulkDelete d delIds true s = bulkDelete d (delIds.take k) true s ∧
        ((bulkDelete d delIds true s).2.1 = [] → k = delIds.length)) ∧
      ∀ i ∈ (bulkDelete d delIds true s).1,
        ∀ r ∈ (bulkDelete d delIds true s).2.2.rows, (r.id : Int) ≠ i) := by
  refine ⟨⟨?_, ?_, ?_, ?_⟩, ⟨?_, ?_, ?_, ?_⟩, ⟨?_, ?_, ?_, ?_⟩⟩
  · obtain ⟨es2, heq, hlen, _⟩ := bulkLoop_errs (createStep d validate true)
      (fun i c es hf => ⟨(createStep_fail hf).2.1, item_data_of_createStep hf⟩)
      items (Conn.fresh s) [] []
    simp only [bulkCreate, heq, List.nil_append]
    exact hlen
  · obtain ⟨es2, heq, _, hsame⟩ := bulkLoop_errs (createStep d validate true)
      (fun i c es hf => ⟨(createStep_fail hf).2.1, item_data_of_createStep hf⟩)
      items (Conn.fresh s) [] []
    simp only [bulkCreate, heq, List.nil_append]
    exact hsame
  · obtain ⟨k, hk, heq, hcond⟩ := bulkLoop_take (createStep d validate true)
      (fun i c es hf => (createStep_fail hf).1) items (Conn.fresh s) [] []
    exact ⟨k, hk, by simp only [bulkCreate]; rw [heq], fun h2 => hcond (by simpa [bulkCreate] using h2)⟩
  · have h := bulkLoop_persist (createStep d validate true) (fun r t => r ∈ t.rows)
      (createStep_persist d validate true) true items (Conn.fresh s) [] [] rfl
      (by intro a ha; cases ha)
    simpa [bulkCreate] using h
  · obtain ⟨es2, heq, hlen, _⟩ := bulkLoop_errs (updateStep d validate true)
      (fun i c es hf => ⟨(updateStep_fail hf).2.1, item_data_of_updateStep hf⟩)
      updItems (Conn.fresh s) [] []
    simp only [bulkUpdate, heq, List.nil_append]
    exact hlen
  · obtain ⟨es2, heq, _, hsame⟩ := bulkLoop_errs (updateStep d validate true)
      (fun i c es hf => ⟨(updateStep_fail hf).2.1, item_data_of_updateStep hf⟩)
      updItems (Conn.fresh s) [] []
    simp only [bulkUpdate, heq, List.nil_append]
    exact hsame
  · obtain ⟨k, hk, heq, hcond⟩ := bulkLoop_take (updateStep d validate true)
      (fun i c es hf => (updateStep_fail hf).1) updItems (Conn.fresh s) [] []
    exact ⟨k, hk, by simp only [bulkUpdate]; rw [heq], fun h2 => hcond (by simpa [bulkUpdate] using h2)⟩
  · have h := bulkLoop_persist (updateStep d validate true)
      (fun inst t => ∃ rid, inst.id = some rid ∧ rid ∈ t.rows.map Row.id)
      (updateStep_persist d validate true) true updItems (Conn.fresh s) [] [] rfl
      (by intro a ha; cases ha)
    simpa [bulkUpdate] using h
  · obtain ⟨es2, heq, hlen, _⟩ := bulkLoop_errs (deleteIdStep d true)
      (fun i c es hf => ⟨(deleteIdStep_fail hf).2.1, id_data_of_deleteStep hf⟩)
      delIds (Conn.fresh s) [] []
    simp only [bulkDelete, heq, List.nil_append]
    exact hlen
  · obtain ⟨es2, heq, _, hsame⟩ := bulkLoop_errs (deleteIdStep d true)
      (fun i c es hf => ⟨(deleteIdStep_fail hf).2.1, id_data_of_deleteStep hf⟩)
      delIds (Conn.fresh s) [] []
    simp only [bulkDelete, heq, List.nil_append]
    exact hsame
  · obtain ⟨k, hk, heq, hcond⟩ := bulkLoop_take (deleteIdStep d true)
      (fun i c es hf => (deleteIdStep_fail hf).1) delIds (Conn.fresh s) [] []
    exact ⟨k, hk, by simp only [bulkDelete]; rw [heq], fun h2 => hcond (by simpa [bulkDelete] using h2)⟩
  · have h := bulkLoop_persist (deleteIdStep d true)
      (fun i t => ∀ r ∈ t.rows, (r.id : Int) ≠ i)
      (deleteIdStep_persist d true) true delIds (Conn.fresh s) [] [] rfl
      (by intro a ha; cases ha)
    simpa [bulkDelete] using h

/-- C1 counterexample: bulk-creating `[valid, invalid]` with
`stop_on_error = true` leaves the first (prior-success) record committed in
the store after the rollback — the batch is not erased — and returns two
error entries for the single failing item, not at most one. -/
theorem bulk_stop_on_error_counterexample :
    (bulkCreate variableDescriptor
        [[("name", .str "var1"), ("data_type", .str "continuous")],
         [("name", .str "var2"), ("data_type", .str "invalid_type")]]
        true true ⟨[], 1⟩).1.length = 1 ∧
    (bulkCreate variableDescriptor
        [[("name", .str "var1"), ("data_type", .str "continuous")],
         [("name", .str "var2"), ("data_type", .str "invalid_type")]]
        true true ⟨[], 1⟩).2.1.length = 2 ∧
    (bulkCreate variableDescriptor
        [[("name", .str "var1"), ("data_type", .str "continuous")],
         [("name", .str "var2"), ("data_type", .str "invalid_type")]]
        true true ⟨[], 1⟩).2.2.rows.length = 1 :=
  ⟨rfl, rfl, rfl⟩

/-- C10 (amended): when `stop_on_error = true` aborts a batch, the
successes recorded before the failing item are still returned in the
successful list, and — because each write was committed by its per-item
commit — the records they name are still present in the durable store:
their writes were not undone by the rollback. -/
theorem bulk_abort_successes_persist (d : Descriptor) (validate : Bool)
    (items updItems : List Dict) (s : Table) :
    (∀ r ∈ (bulkCreate d items validate true s).1,
        r ∈ (bulkCreate d items validate true s).2.2.rows) ∧
    ∀ inst ∈ (bulkUpdate d updItems validate true s).1,
      ∃ rid, inst.id = some rid ∧
        rid ∈ (bulkUpdate d updItems validate true s).2.2.rows.map Row.id := by
  constructor
  · have h := bulkLoop_persist (createStep d validate true) (fun r t => r ∈ t.rows)
      (createStep_persist d validate true) true items (Conn.fresh s) [] [] rfl
      (by intro a ha; cases ha)
    simpa [bulkCreate] using h
  · have h := bulkLoop_persist (updateStep d validate true)
      (fun inst t => ∃ rid, inst.id = some rid ∧ rid ∈ t.rows.map Row.id)
      (updateStep_persist d validate true) true updItems (Conn.fresh s) [] [] rfl
      (by intro a ha; cases ha)
    simpa [bulkUpdate] using h

/-- C10 counterexample: a two-item bulk update (`stop_on_error = true`,
second item missing) aborts and rolls back, yet returns the first item in
the successful list and its write — `description = "newd"` — is still in
the store afterwards: the record is neither undone nor absent. -/
theorem bulk_abort_success_not_absent_counterexample :
    (bulkUpdate variableDescriptor
        [[("id", .int 1), ("description", .str "newd")],
         [("id", .int 99), ("description", .str "x")]] true true
        ⟨[⟨1, projectCols variableDescriptor.columns
            [("name", .str "var1"), ("data_type", .str "continuous")]⟩], 2⟩).1.length = 1 ∧
    (bulkUpdate variableDescriptor
        [[("id", .int 1), ("description", .str "newd")],
         [("id", .int 99), ("description", .str "x")]] true true
        ⟨[⟨1, projectCols variableDescriptor.columns
            [("name", .str "var1"), ("data_type", .str "continuous")]⟩], 2⟩).2.1.length = 2 ∧
    ((bulkUpdate variableDescriptor
        [[("id", .int 1), ("description", .str "newd")],
         [("id", .int 99), ("description", .str "x")]] true true
        ⟨[⟨1, projectCols variableDescriptor.columns
            [("name", .str "var1"), ("data_type", .str "continuous")]⟩], 2⟩).2.2.rows.map
      fun row => dictGet row.vals "description") = [some (.str "newd")] :=
  ⟨rfl, rfl, rfl⟩

/-- C7: serialising any built-in constraint with `to_dict`, deserialising
with `constraint_from_dict` and serialising again yields a representation
identical to the first serialisation. -/
theorem constraint_roundtrip (c : Constraint) :
    (constraint_from_dict c.toDict).map Constraint.toDict = .ok c.toDict := by
  cases c <;> rfl

/-- C8: `RegexConstraint.validate` returns true exactly when the value is a
string some prefix of which, anchored at position 0, is in the language of
the compiled pattern — Python `match` semantics, so a value whose only
matches start later in the string is rejected. -/
theorem regex_validate_match_semantics (compiled : Regex) (v : Value) :
    RegexConstraint.validate compiled v = true ↔
      ∃ s l1 l2, v = .str s ∧ s.data = l1 ++ l2 ∧ RMatch compiled l1 := by
  cases v with
  | str s =>
      simp only [RegexConstraint.validate]
      rw [matchFrom_iff]
      constructor
      · rintro ⟨l1, l2, heq, hm⟩
        exact ⟨s, l1, l2, rfl, heq, hm⟩
      · rintro ⟨s2, l1, l2, heq, hdata, hm⟩
        injection heq with h2
        subst h2
        exact ⟨l1, l2, hdata, hm⟩
  | null =>
      constructor
      · intro h
        exact Bool.noConfusion h
      · rintro ⟨s, l1, l2, heq, -, -⟩
        exact Value.noConfusion heq
  | bool b =>
      constructor
      · intro h
        exact Bool.noConfusion h
      · rintro ⟨s, l1, l2, heq, -, -⟩
        exact Value.noConfusion heq
  | int n =>
      constructor
      · intro h
        exact Bool.noConfusion h
      · rintro ⟨s, l1, l2, heq, -, -⟩
        exact Value.noConfusion heq
  | list xs =>
      constructor
      · intro h
        exact Bool.noConfusion h
      · rintro ⟨s, l1, l2, heq, -, -⟩
        exact Value.noConfusion heq
  | dict kvs =>
      constructor
      · intro h
        exact Bool.noConfusion h
      · rintro ⟨s, l1, l2, heq, -, -⟩
        exact Value.noConfusion heq

/-- Witness for C8 at a concrete pattern and value: the pattern `a` matches
`"ab"` at position 0, so validation accepts. -/
theorem regex_validate_match_semantics_witness :
    RegexConstraint.validate (.char 'a') (.str "ab") = true :=
  (regex_validate_match_semantics (.char 'a') (.str "ab")).mpr
    ⟨"ab", ['a'], ['b'], rfl, rfl, .char 'a'⟩

theorem length_insertSorted (le : Row → Row → Bool) (r : Row) (l : List Row) :
    (insertSorted le r l).length = l.length + 1 := by
  induction l with
  | nil => rfl
  | cons x xs ih =>
      simp only [insertSorted]
      split
      · simp
      · simp [ih]

theorem length_sortRows (le : Row → Row → Bool) (l : List Row) :
    (sortRows le l).length = l.length := by
  induction l with
  | nil => rfl
  | cons x xs ih => simp [sortRows, length_insertSorted, ih]

/-- C5: `get_paginated` validates its parameters before anything else and,
on any violation — `page < 1`, `page_size < 1`, `page_size > 1000`, a
`sort_by` that is neither a declared column nor the id column, or a
`sort_order` other than asc/desc case-insensitively — returns a
descriptive error having issued no query. -/
theorem get_paginated_validation (d : Descriptor) (page pageSize : Int)
    (filters : List (String × Value)) (sortBy : Option String) (sortOrder : String)
    (t : Table)
    (h : page < 1 ∨ pageSize < 1 ∨ 1000 < pageSize ∨ sortColumnBad d sortBy = true ∨
      pyLower sortOrder ∉ ["asc", "desc"]) :
    (∃ msg, (BaseModel.getPaginated d page pageSize filters sortBy sortOrder t).1 =
      .error msg) ∧
    (BaseModel.getPaginated d page pageSize filters sortBy sortOrder t).2 = [] := by
  unfold BaseModel.getPaginated
  by_cases h1 : page < 1
  · rw [if_pos h1]
    exact ⟨⟨_, rfl⟩, rfl⟩
  · rw [if_neg h1]
    by_cases h2 : pageSize ≤ 0
    · rw [if_pos h2]
      exact ⟨⟨_, rfl⟩, rfl⟩
    · rw [if_neg h2]
      by_cases h3 : pageSize > 1000
      · rw [if_pos h3]
        exact ⟨⟨_, rfl⟩, rfl⟩
      · rw [if_neg h3]
        by_cases h4 : sortColumnBad d sortBy = true
        · rw [if_pos h4]
          exact ⟨⟨_, rfl⟩, rfl⟩
        · rw [if_neg h4]
          by_cases h5 : pyLower sortOrder ∉ ["asc", "desc"]
          · rw [if_pos h5]
            exact ⟨⟨_, rfl⟩, rfl⟩
          · exfalso
            rcases h with hh | hh | hh | hh | hh
            · exact h1 hh
            · omega
            · omega
            · exact h4 hh
            · exact h5 hh

/-- Witness for C5: `page = 0` fails fast with no query issued. -/
theorem get_paginated_validation_witness :
    (∃ msg, (BaseModel.getPaginated variableDescriptor 0 20 [] none "asc" ⟨[], 1⟩).1 =
      .error msg) ∧
    (BaseModel.getPaginated variableDescriptor 0 20 [] none "asc" ⟨[], 1⟩).2 = [] :=
  get_paginated_validation variableDescriptor 0 20 [] none "asc" ⟨[], 1⟩
    (Or.inl (by norm_num))

/-- C6: under valid parameters and a nonempty filtered set, `get_paginated`
returns the correct nonzero total count, and the returned page is empty
exactly when the offset `(page-1)*page_size` reaches past the filtered
set — so every page beyond the last returns an empty list paired with the
nonzero total. -/
theorem get_paginated_offset (d : Descriptor) (page pageSize : Int)
    (filters : List (String × Value)) (sortBy : Option String) (sortOrder : String)
    (t : Table)
    (h1 : 1 ≤ page) (h2 : 1 ≤ pageSize) (h3 : pageSize ≤ 1000)
    (h4 : sortColumnBad d sortBy = false) (h5 : pyLower sortOrder ∈ ["asc", "desc"])
    (h6 : t.rows.filter (rowMatches filters) ≠ []) :
    ∃ rows, (BaseModel.getPaginated d page pageSize filters sortBy sortOrder t).1 =
        .ok (rows, (t.rows.filter (rowMatches filters)).length) ∧
      (t.rows.filter (rowMatches filters)).length ≠ 0 ∧
      (rows = [] ↔
        ((t.rows.filter (rowMatches filters)).length : Int) ≤ (page - 1) * pageSize) := by
  unfold BaseModel.getPaginated
  rw [if_neg (by omega), if_neg (by omega), if_neg (by omega),
    if_neg (by rw [h4]; exact Bool.false_ne_true),
    if_neg (by intro hcon; exact hcon h5)]
  have hlen : (t.rows.filter (rowMatches filters)).length ≠ 0 := by
    intro h0
    exact h6 (List.eq_nil_of_length_eq_zero h0)
  rw [if_neg hlen]
  refine ⟨_, rfl, hlen, ?_⟩
  have hsortlen : ∀ sorted : List Row,
      sorted.length = (t.rows.filter (rowMatches filters)).length →
      ((sorted.drop ((page - 1) * pageSize).toNat).take pageSize.toNat = [] ↔
        ((t.rows.filter (rowMatches filters)).length : Int) ≤ (page - 1) * pageSize) := by
    intro sorted hslen
    rw [List.take_eq_nil_iff]
    have hps : pageSize.toNat ≠ 0 := by omega
    have hoff : (0 : Int) ≤ (page - 1) * pageSize := by
      apply mul_nonneg <;> omega
    constructor
    · rintro (hc | hc)
      · exact absurd hc hps
      · have := List.drop_eq_nil_iff.mp hc
        rw [hslen] at this
        rw [← Int.le_toNat hoff]
        exact this
    · intro hc
      right
      apply List.drop_eq_nil_iff.mpr
      rw [hslen, Int.le_toNat hoff]
      exact hc
  cases sortBy with
  | none => exact hsortlen _ rfl
  | some col => exact hsortlen _ (length_sortRows _ _)

/-- Witness for C6: one record, page 2 of size 1 — one page beyond the
last — returns the empty page with the nonzero total. -/
theorem get_paginated_offset_witness :
    (BaseModel.getPaginated variableDescriptor 2 1 [] none "asc"
      ⟨[⟨1, projectCols variableDescriptor.columns
          [("name", .str "var1"), ("data_type", .str "text")]⟩], 2⟩).1 = .ok ([], 1) := by
  obtain ⟨rows, ha, hb, hc⟩ := get_paginated_offset variableDescriptor 2 1 [] none "asc"
    ⟨[⟨1, projectCols variableDescriptor.columns
        [("name", .str "var1"), ("data_type", .str "text")]⟩], 2⟩
    (by norm_num) (by norm_num) (by norm_num) rfl (by decide)
    (List.cons_ne_nil _ _)
  have hrows : rows = [] := hc.mpr (by decide)
  rw [hrows] at ha
  exact ha

theorem dictGet_declaredUpdates (d : Descriptor) (data : Dict) (k : String) :
    dictGet (BaseModel.declaredUpdates d data) k =
      if k ∈ d.columns then dictGet data k else none := by
  unfold BaseModel.declaredUpdates
  have h := dictGet_filter_key data (fun s => decide (s ∈ d.columns)) k
  by_cases hk : k ∈ d.columns
  · rw [if_pos hk]
    rw [if_pos (by simp [hk])] at h
    exact h
  · rw [if_neg hk]
    rw [if_neg (by simp [hk])] at h
    exact h

theorem nodup_declaredUpdates (d : Descriptor) (data : Dict)
    (h : (data.map Prod.fst).Nodup) :
    ((BaseModel.declaredUpdates d data).map Prod.fst).Nodup :=
  nodup_keys_filter data _ h

theorem applyDeclared_lookup (d : Descriptor) (vals data : Dict)
    (hnodup : (data.map Prod.fst).Nodup) :
    (∀ k, k ∉ d.columns →
      dictGet (BaseModel.applyUpdates vals (BaseModel.declaredUpdates d data)) k =
        dictGet vals k) ∧
    ∀ k ∈ d.columns,
      dictGet (BaseModel.applyUpdates vals (BaseModel.declaredUpdates d data)) k =
        (match dictGet data k with
          | some v => some v
          | none => dictGet vals k) := by
  constructor
  · intro k hk
    apply dictGet_applyUpdates_of_none
    rw [dictGet_declaredUpdates, if_neg hk]
  · intro k hk
    cases hd : dictGet data k with
    | some v =>
        have h2 : dictGet (BaseModel.declaredUpdates d data) k = some v := by
          rw [dictGet_declaredUpdates, if_pos hk, hd]
        exact dictGet_applyUpdates_of_some _ vals k v
          (nodup_declaredUpdates d data hnodup) h2
    | none =>
        have h2 : dictGet (BaseModel.declaredUpdates d data) k = none := by
          rw [dictGet_declaredUpdates, if_pos hk, hd]
        exact dictGet_applyUpdates_of_none _ vals k h2

/-- C9: updating an unpersisted instance fails with a usage error before any
write; updating a persisted record overwrites exactly the declared columns
present in `data` — on the instance and on the stored row — silently
ignores keys that are not declared columns, leaves the identifier and all
row ids unchanged, and leaves every other row untouched. -/
theorem update_frame :
    (∀ (d : Descriptor) (inst : Instance) (data : Dict) (c : Conn),
      inst.id = none → BaseModel.update d inst data c = .error BaseModel.updateNoIdMsg) ∧
    ∀ (d : Descriptor) (inst : Instance) (data : Dict) (c : Conn) (i : Nat)
      (inst2 : Instance) (c2 : Conn),
      inst.id = some i → (data.map Prod.fst).Nodup → c.current = c.committed →
      BaseModel.update d inst data c = .ok (inst2, c2) →
      inst2.id = some i ∧
      (∀ k, k ∉ d.columns → dictGet inst2.vals k = dictGet inst.vals k) ∧
      (∀ k ∈ d.columns, dictGet inst2.vals k =
        (match dictGet data k with
          | some v => some v
          | none => dictGet inst.vals k)) ∧
      c2.committed.rows.map Row.id = c.committed.rows.map Row.id ∧
      (∀ r ∈ c.committed.rows, r.id ≠ i → r ∈ c2.committed.rows) ∧
      ∀ r ∈ c.committed.rows, r.id = i → ∃ r2, r2 ∈ c2.committed.rows ∧ r2.id = i ∧
        (∀ k, k ∉ d.columns → dictGet r2.vals k = dictGet r.vals k) ∧
        ∀ k ∈ d.columns, dictGet r2.vals k =
          (match dictGet data k with
            | some v => some v
            | none => dictGet r.vals k) := by
  constructor
  · intro d inst data c hid
    unfold BaseModel.update
    rw [hid]
  · intro d inst data c i inst2 c2 hid hnodup hsync hok
    unfold BaseModel.update at hok
    simp only [hid] at hok
    by_cases hemp : (BaseModel.declaredUpdates d data).isEmpty
    · rw [if_pos hemp] at hok
      cases hok
      have hupde : BaseModel.declaredUpdates d data = [] := by
        cases hde : BaseModel.declaredUpdates d data with
        | nil => rfl
        | cons kv rest => rw [hde] at hemp; simp [List.isEmpty] at hemp
      have hdata : ∀ k ∈ d.columns, dictGet data k = none := by
        intro k hk
        have h2 := dictGet_declaredUpdates d data k
        rw [hupde, if_pos hk] at h2
        exact h2.symm
      refine ⟨rfl, ?_, ?_, rfl, ?_, ?_⟩
      · intro k hk
        rw [hupde]
        rfl
      · intro k hk
        rw [hupde, hdata k hk]
        rfl
      · intro r hr _
        exact hr
      · intro r hr hri
        refine ⟨r, hr, hri, fun k hk => rfl, ?_⟩
        intro k hk
        rw [hdata k hk]
    · rw [if_neg hemp] at hok
      cases hchk : d.updateCheck c.current i (BaseModel.declaredUpdates d data) with
      | some e =>
          simp only [hchk] at hok
          exact Except.noConfusion hok
      | none =>
          simp only [hchk] at hok
          cases hok
          obtain ⟨hinone, hisome⟩ := applyDeclared_lookup d inst.vals data hnodup
          refine ⟨rfl, hinone, hisome, ?_, ?_, ?_⟩
          · exact (map_row_id_update c.current.rows i
              (BaseModel.declaredUpdates d data)).trans (by rw [hsync])
          · intro r hr hri
            rw [← hsync] at hr
            refine List.mem_map.mpr ⟨r, hr, ?_⟩
            rw [if_neg hri]
          · intro r hr hri
            rw [← hsync] at hr
            obtain ⟨hrnone, hrsome⟩ := applyDeclared_lookup d r.vals data hnodup
            refine ⟨⟨r.id, BaseModel.applyUpdates r.vals (BaseModel.declaredUpdates d data)⟩,
              List.mem_map.mpr ⟨r, hr, by rw [if_pos hri]⟩, hri, hrnone, hrsome⟩

/-- Witness for C9: both branches at concrete inputs — the no-id usage
error, and a persisted update overwriting only the declared column present
in the payload while ignoring an unknown key and keeping the identifier. -/
theorem update_frame_witness :
    BaseModel.update variableDescriptor ⟨none, []⟩ [("name", .str "x")] (Conn.fresh ⟨[], 1⟩)
      = .error BaseModel.updateNoIdMsg ∧
    ∀ inst2 c2, BaseModel.update variableDescriptor
        ⟨some 1, projectCols variableDescriptor.columns
          [("name", .str "var1"), ("data_type", .str "text")]⟩
        [("description", .str "d2"), ("unknown_key", .str "zz")]
        (Conn.fresh ⟨[⟨1, projectCols variableDescriptor.columns
          [("name", .str "var1"), ("data_type", .str "text")]⟩], 2⟩) = .ok (inst2, c2) →
      inst2.id = some 1 ∧ dictGet inst2.vals "unknown_key" = none ∧
        dictGet inst2.vals "description" = some (.str "d2") := by
  constructor
  · exact update_frame.1 variableDescriptor ⟨none, []⟩ [("name", .str "x")]
      (Conn.fresh ⟨[], 1⟩) rfl
  · intro inst2 c2 hok
    obtain ⟨h1, h2, h3, -, -, -⟩ := update_frame.2 variableDescriptor
      ⟨some 1, projectCols variableDescriptor.columns
        [("name", .str "var1"), ("data_type", .str "text")]⟩
      [("description", .str "d2"), ("unknown_key", .str "zz")]
      (Conn.fresh ⟨[⟨1, projectCols variableDescriptor.columns
        [("name", .str "var1"), ("data_type", .str "text")]⟩], 2⟩)
      1 inst2 c2 rfl (by decide) rfl hok
    refine ⟨h1, ?_, ?_⟩
    · rw [h2 "unknown_key" (by decide)]
      rfl
    · rw [h3 "description" (by decide)]
      rfl

/-- C3 (amended): the bulk pipeline collects validation failures as data,
and `Variable.create_with_validation` returns field-scoped errors as data
rather than raising for failures on fields other than `data_type` and a
missing required category set — here, any invalid name with a valid
non-categorical data type yields `(None, errors)` without an exception. -/
theorem create_with_validation_returns_errors (name dataType : String)
    (description reference : Option String) (c : Conn)
    (hname : name ≠ "") (hbad : validate_name name = false)
    (hdt : dataType ∈ (["discrete", "continuous", "text"] : List String)) :
    Variable.create_with_validation name dataType none description reference c =
      .ok (none, [⟨"name", "Name must be a valid Python identifier and lowercase"⟩], c) := by
  have hv : Variable.validate_data
      [("name", .str name), ("data_type", .str dataType),
       ("category_set_id", Variable.optInt none),
       ("description", Variable.optStr description),
       ("reference", Variable.optStr reference)] =
      .ok ⟨[⟨"name", "Name must be a valid Python identifier and lowercase"⟩], []⟩ := by
    simp only [List.mem_cons, List.mem_singleton, List.not_mem_nil, or_false] at hdt
    rcases hdt with rfl | rfl | rfl <;>
      · unfold Variable.validate_data
        simp [dictGet, Value.truthy, hname, hbad, validate_data_type, Variable.DATA_TYPES,
          Variable.isCategorical, Variable.CATEGORICAL_TYPES, dictGetD, Variable.optInt,
          Variable.optStr, ValidationResult.empty, ValidationResult.addError, Value.pyStr]
        rfl
  unfold Variable.create_with_validation
  dsimp only []
  rw [hv]
  rfl

/-- C3 counterexample: creating a variable whose data fails validation on
the data type does not return the errors — `create_with_validation`
re-raises a `ValueError` for backward compatibility (variable.py lines
271-277), so the caller sees an exception, not data. -/
theorem create_with_validation_raises_counterexample :
    Variable.create_with_validation "x" "invalid_type" none none none (Conn.fresh ⟨[], 1⟩)
      = .error Variable.dataTypesMsg := rfl

/-- Witness for C3 (amended) at a concrete invalid name. -/
theorem create_with_validation_returns_errors_witness :
    Variable.create_with_validation "Bad name" "text" none none none (Conn.fresh ⟨[], 1⟩)
      = .ok (none, [⟨"name", "Name must be a valid Python identifier and lowercase"⟩],
          Conn.fresh ⟨[], 1⟩) :=
  create_with_validation_returns_errors "Bad name" "text" none none (Conn.fresh ⟨[], 1⟩)
    (by decide) (by decide) (by decide)

/-- Witness for C1 (amended): a concrete one-item batch. -/
theorem bulk_stop_on_error_amended_witness :
    (bulkCreate variableDescriptor
        [[("name", .str "w1"), ("data_type", .str "text")]] true true ⟨[], 1⟩).2.1.length ≤ 2 :=
  (bulk_stop_on_error_amended variableDescriptor true
      [[("name", .str "w1"), ("data_type", .str "text")]] [] [] ⟨[], 1⟩).1.1

/-- Witness for C2: a `[valid, invalid]` batch partitions into one success
and one error. -/
theorem bulk_continue_partition_witness :
    (bulkCreate variableDescriptor
        [[("name", .str "w2"), ("data_type", .str "text")],
         [("name", .str "w3"), ("data_type", .str "bogus")]] true false ⟨[], 1⟩).1.length +
      (bulkCreate variableDescriptor
        [[("name", .str "w2"), ("data_type", .str "text")],
         [("name", .str "w3"), ("data_type", .str "bogus")]] true false ⟨[], 1⟩).2.1.length
      = 2 :=
  (bulk_continue_partition variableDescriptor true
      [[("name", .str "w2"), ("data_type", .str "text")],
       [("name", .str "w3"), ("data_type", .str "bogus")]] [] [] ⟨[], 1⟩).1.1

/-- Witness for C10 (amended): the success of an aborted batch is still in
the durable table. -/
theorem bulk_abort_successes_persist_witness :
    (⟨1, projectCols variableDescriptor.columns
        [("name", .str "w4"), ("data_type", .str "text")]⟩ : Row) ∈
      (bulkCreate variableDescriptor
        [[("name", .str "w4"), ("data_type", .str "text")],
         [("name", .str "w5"), ("data_type", .str "bogus")]] true true ⟨[], 1⟩).2.2.rows :=
  (bulk_abort_successes_persist variableDescriptor true
      [[("name", .str "w4"), ("data_type", .str "text")],
       [("name", .str "w5"), ("data_type", .str "bogus")]] [] ⟨[], 1⟩).1
    _ (List.mem_singleton.mpr rfl)

end Varman
